import Mathlib

/-
Verification of the vessel resolution & classification engine of the
marine-data-learning repository.

The development shallowly embeds the Python sources:
  * "retired scripts/intergrated_analysis.py"  (interval merge, retired paginator)
  * "scripts/comprehensive_vessel_analysis.py" (resolver, extractors, classifier,
    paginator, batch driver)
  * "scripts/Senegal_Foreign_Fleet_Checker.py" (sibling resolver variant)

Modelling conventions, used throughout:
  * time instants are integers (seconds); durations divided by 3600 become
    rationals, mirroring `total_seconds() / 3600`;
  * JSON dictionaries become structures of `Option` fields; a missing key is
    `none`;
  * Python truthiness is modelled explicitly: `none` and `some ""` are falsy
    for strings, `none` and `some 0` are falsy for numbers;
  * `requests` responses are injected as explicit inputs (the network is an
    external collaborator), so every function is pure;
  * f-string rendering of classification reasons is abstracted to a tagged
    `Reason` type carrying the interpolated values.
-/

namespace MarineData

/-! ## Python truthiness helpers -/

/-- Python truthiness of an optional string: `None` and `""` are falsy. -/
def truthyStr : Option String → Bool
  | none => false
  | some s => s ≠ ""

/-- Python truthiness of an optional number: `None` and `0` are falsy. -/
def truthyNum : Option ℚ → Bool
  | none => false
  | some q => q ≠ 0

/-! ## Interval merge — "retired scripts/intergrated_analysis.py"

`merge_intervals` (lines 35-50) sorts the intervals by start and makes one
coalescing sweep; `calculate_total_hours` (lines 52-68) parses events to
intervals, merges them and sums the merged durations in hours. -/

/-- A time interval `(start, end)` in integer seconds. -/
abbrev Iv := Int × Int

/-- Duration of an interval in seconds: `(end - start).total_seconds()`. -/
def dur (x : Iv) : Int := x.2 - x.1

/-- A well-formed interval has `start ≤ end`. -/
def wfIv (x : Iv) : Prop := x.1 ≤ x.2

instance (x : Iv) : Decidable (wfIv x) := inferInstanceAs (Decidable (x.1 ≤ x.2))

/-- Two intervals overlap when they share a time range of positive length. -/
def overlaps (x y : Iv) : Prop := max x.1 y.1 < min x.2 y.2

instance (x y : Iv) : Decidable (overlaps x y) :=
  inferInstanceAs (Decidable (max x.1 y.1 < min x.2 y.2))

/-- Sum of the individual durations of a list of intervals, in seconds. -/
def sumDur (l : List Iv) : Int := (l.map dur).sum

/-- The coalescing sweep of `merge_intervals`: starting from
`merged = [intervals[0]]`, each `current` interval is folded into the running
interval when `current[0] <= last[1]` (the end extended with `max`), otherwise
the running interval is emitted and `current` starts a new one. -/
def sweep : Iv → List Iv → List Iv
  | acc, [] => [acc]
  | acc, c :: rest =>
    if c.1 ≤ acc.2 then sweep (acc.1, max acc.2 c.2) rest else acc :: sweep c rest

/-- `intervals.sort(key=lambda x: x[0])`: a stable sort by interval start.
Python's sort is stable, and so is `List.insertionSort` as defined in Mathlib,
so the two agree on every input. -/
def sortStart (l : List Iv) : List Iv := l.insertionSort (fun a b => a.1 ≤ b.1)

/-- `merge_intervals` (lines 35-50): empty input yields `[]`, otherwise sort by
start and sweep once from the first interval. -/
def merge_intervals (l : List Iv) : List Iv :=
  match sortStart l with
  | [] => []
  | x :: xs => sweep x xs

instance : IsTotal Iv (fun a b => a.1 ≤ b.1) := ⟨fun a b => le_total a.1 b.1⟩

instance : IsTrans Iv (fun a b => a.1 ≤ b.1) := ⟨fun _ _ _ => le_trans⟩

theorem sumDur_nil : sumDur [] = 0 := rfl

theorem sumDur_cons (x : Iv) (l : List Iv) : sumDur (x :: l) = dur x + sumDur l := by
  simp [sumDur]

/-- Merging one interval into the running one never gains duration, and keeps
the exact sum iff the two do not (positively) overlap. -/
theorem dur_merge (acc c : Iv) (ha : wfIv acc) (hc : wfIv c)
    (hle : acc.1 ≤ c.1) (h : c.1 ≤ acc.2) :
    dur (acc.1, max acc.2 c.2) ≤ dur acc + dur c ∧
    (dur (acc.1, max acc.2 c.2) = dur acc + dur c ↔ ¬ overlaps acc c) := by
  unfold wfIv at ha hc
  unfold dur overlaps
  dsimp only
  omega

/-- An interval that ends strictly before another starts does not overlap it. -/
theorem nonov_far (x y : Iv) (h : x.2 < y.1) : ¬ overlaps x y := by
  unfold overlaps; omega

/-- Absorbing `c` into the running interval preserves non-overlap with every
later interval, in both directions. -/
theorem nonov_absorb (acc c d : Iv) (h1 : acc.1 ≤ d.1) (h2 : c.1 ≤ d.1) :
    (¬ overlaps acc d ∧ ¬ overlaps c d) ↔ ¬ overlaps (acc.1, max acc.2 c.2) d := by
  unfold overlaps
  dsimp only
  omega

/-- List-level version of `nonov_absorb`: pairwise non-overlap of
`acc :: c :: rest` is equivalent to non-overlap of `acc` with `c` together
with pairwise non-overlap of the absorbed interval against `rest`. -/
theorem pairwise_nonov_absorb (acc c : Iv) (rest : List Iv)
    (hacc : ∀ b ∈ c :: rest, acc.1 ≤ b.1) (hc : ∀ b ∈ rest, c.1 ≤ b.1) :
    List.Pairwise (fun a b : Iv => ¬ overlaps a b) (acc :: c :: rest) ↔
      (¬ overlaps acc c ∧
        List.Pairwise (fun a b : Iv => ¬ overlaps a b) ((acc.1, max acc.2 c.2) :: rest)) := by
  simp only [List.pairwise_cons, List.mem_cons, forall_eq_or_imp]
  constructor
  · rintro ⟨⟨h1, h2⟩, h3, h4⟩
    refine ⟨h1, fun b hb => ?_, h4⟩
    exact (nonov_absorb acc c b (hacc b (List.mem_cons_of_mem _ hb)) (hc b hb)).1
      ⟨h2 b hb, h3 b hb⟩
  · rintro ⟨h1, h2, h4⟩
    have hboth : ∀ b ∈ rest, ¬ overlaps acc b ∧ ¬ overlaps c b := fun b hb =>
      (nonov_absorb acc c b (hacc b (List.mem_cons_of_mem _ hb)) (hc b hb)).2 (h2 b hb)
    exact ⟨⟨h1, fun b hb => (hboth b hb).1⟩, fun b hb => (hboth b hb).2, h4⟩

/-- Core accounting for the sweep: the merged duration never exceeds
`dur acc` plus the sum of the remaining durations, with equality exactly when
`acc :: l` is pairwise non-overlapping. -/
theorem sweep_sum (l : List Iv) : ∀ acc : Iv, wfIv acc → (∀ x ∈ l, wfIv x) →
    List.Pairwise (fun a b : Iv => a.1 ≤ b.1) (acc :: l) →
    sumDur (sweep acc l) ≤ dur acc + sumDur l ∧
    (sumDur (sweep acc l) = dur acc + sumDur l ↔
      List.Pairwise (fun a b : Iv => ¬ overlaps a b) (acc :: l)) := by
  induction l with
  | nil =>
    intro acc _ _ _
    refine ⟨le_of_eq ?_, ?_, fun _ => ?_⟩ <;> simp [sweep, sumDur_cons, sumDur_nil]
  | cons c rest ih =>
    intro acc ha hall hs
    have hc : wfIv c := hall c (List.mem_cons_self c rest)
    have hrestwf : ∀ x ∈ rest, wfIv x := fun x hx => hall x (List.mem_cons_of_mem _ hx)
    have hacc : ∀ b ∈ c :: rest, acc.1 ≤ b.1 := (List.pairwise_cons.1 hs).1
    have hrest : List.Pairwise (fun a b : Iv => a.1 ≤ b.1) (c :: rest) :=
      (List.pairwise_cons.1 hs).2
    have hcle : ∀ b ∈ rest, c.1 ≤ b.1 := (List.pairwise_cons.1 hrest).1
    have haclec : acc.1 ≤ c.1 := hacc c (List.mem_cons_self c rest)
    by_cases h : c.1 ≤ acc.2
    · have hstep : sweep acc (c :: rest) = sweep (acc.1, max acc.2 c.2) rest := by
        simp [sweep, h]
      have ha' : wfIv (acc.1, max acc.2 c.2) := by
        unfold wfIv at ha ⊢; dsimp only; omega
      have hs' : List.Pairwise (fun a b : Iv => a.1 ≤ b.1) ((acc.1, max acc.2 c.2) :: rest) :=
        List.pairwise_cons.2 ⟨fun b hb => hacc b (List.mem_cons_of_mem _ hb),
          (List.pairwise_cons.1 hrest).2⟩
      obtain ⟨ih1, ih2⟩ := ih (acc.1, max acc.2 c.2) ha' hrestwf hs'
      obtain ⟨d1, d2⟩ := dur_merge acc c ha hc haclec h
      rw [hstep, sumDur_cons]
      constructor
      · omega
      · rw [pairwise_nonov_absorb acc c rest hacc hcle]
        constructor
        · intro heq
          have e1 : sumDur (sweep (acc.1, max acc.2 c.2) rest) =
              dur (acc.1, max acc.2 c.2) + sumDur rest := by omega
          have e2 : dur (acc.1, max acc.2 c.2) = dur acc + dur c := by omega
          exact ⟨d2.1 e2, ih2.1 e1⟩
        · rintro ⟨hov, hpw⟩
          have e2 : dur (acc.1, max acc.2 c.2) = dur acc + dur c := d2.2 hov
          have e1 : sumDur (sweep (acc.1, max acc.2 c.2) rest) =
              dur (acc.1, max acc.2 c.2) + sumDur rest := ih2.2 hpw
          omega
    · have hstep : sweep acc (c :: rest) = acc :: sweep c rest := by
        simp [sweep, h]
      obtain ⟨ih1, ih2⟩ := ih c hc hrestwf hrest
      have hfar : ∀ b ∈ c :: rest, ¬ overlaps acc b := by
        intro b hb
        refine nonov_far acc b ?_
        rcases List.mem_cons.1 hb with hb | hb
        · subst hb; omega
        · have := hcle b hb; omega
      rw [hstep, sumDur_cons, sumDur_cons]
      constructor
      · omega
      · constructor
        · intro heq
          exact List.pairwise_cons.2 ⟨hfar, ih2.1 (by omega)⟩
        · intro hpw
          have := ih2.2 (List.pairwise_cons.1 hpw).2
          omega

/-- Structural invariant of the sweep: every emitted interval is well-formed
and starts no earlier than the running interval, and consecutive emitted
intervals are separated (`end < next start`). -/
theorem sweep_chain (l : List Iv) : ∀ acc : Iv, wfIv acc → (∀ x ∈ l, wfIv x) →
    List.Pairwise (fun a b : Iv => a.1 ≤ b.1) (acc :: l) →
    (∀ y ∈ sweep acc l, wfIv y ∧ acc.1 ≤ y.1) ∧
    List.Pairwise (fun a b : Iv => a.2 < b.1) (sweep acc l) := by
  induction l with
  | nil =>
    intro acc ha _ _
    constructor
    · intro y hy
      rcases List.mem_singleton.1 hy with rfl
      exact ⟨ha, le_refl _⟩
    · simp [sweep]
  | cons c rest ih =>
    intro acc ha hall hs
    have hc : wfIv c := hall c (List.mem_cons_self c rest)
    have hrestwf : ∀ x ∈ rest, wfIv x := fun x hx => hall x (List.mem_cons_of_mem _ hx)
    have hacc : ∀ b ∈ c :: rest, acc.1 ≤ b.1 := (List.pairwise_cons.1 hs).1
    have hrest : List.Pairwise (fun a b : Iv => a.1 ≤ b.1) (c :: rest) :=
      (List.pairwise_cons.1 hs).2
    have hcle : ∀ b ∈ rest, c.1 ≤ b.1 := (List.pairwise_cons.1 hrest).1
    by_cases h : c.1 ≤ acc.2
    · have hstep : sweep acc (c :: rest) = sweep (acc.1, max acc.2 c.2) rest := by
        simp [sweep, h]
      have ha' : wfIv (acc.1, max acc.2 c.2) := by
        unfold wfIv at ha ⊢; dsimp only; omega
      have hs' : List.Pairwise (fun a b : Iv => a.1 ≤ b.1) ((acc.1, max acc.2 c.2) :: rest) :=
        List.pairwise_cons.2 ⟨fun b hb => hacc b (List.mem_cons_of_mem _ hb),
          (List.pairwise_cons.1 hrest).2⟩
      obtain ⟨ihm, ihp⟩ := ih (acc.1, max acc.2 c.2) ha' hrestwf hs'
      rw [hstep]
      exact ⟨fun y hy => (ihm y hy), ihp⟩
    · have hstep : sweep acc (c :: rest) = acc :: sweep c rest := by
        simp [sweep, h]
      obtain ⟨ihm, ihp⟩ := ih c hc hrestwf hrest
      rw [hstep]
      constructor
      · intro y hy
        rcases List.mem_cons.1 hy with rfl | hy
        · exact ⟨ha, le_refl _⟩
        · have := ihm y hy
          unfold wfIv at ha
          exact ⟨this.1, by omega⟩
      · refine List.pairwise_cons.2 ⟨fun y hy => ?_, ihp⟩
        have := (ihm y hy).2
        omega

theorem overlaps_comm (x y : Iv) : overlaps x y ↔ overlaps y x := by
  unfold overlaps; omega

theorem sumDur_perm {l₁ l₂ : List Iv} (h : l₁.Perm l₂) : sumDur l₁ = sumDur l₂ :=
  List.Perm.sum_eq (h.map dur)

theorem merge_intervals_of_sorted {l : List Iv} {x : Iv} {xs : List Iv}
    (hm : sortStart l = x :: xs) : merge_intervals l = sweep x xs := by
  unfold merge_intervals; rw [hm]

/-- Full specification of `merge_intervals` on well-formed inputs: the output
consists of well-formed intervals, consecutive outputs are separated
(`end < next start`, hence pairwise non-overlapping and sorted by start), the
merged duration never exceeds the sum of the input durations, and the two sums
agree exactly when no two inputs overlap. -/
theorem merge_intervals_spec (l : List Iv) (hwf : ∀ x ∈ l, wfIv x) :
    (∀ y ∈ merge_intervals l, wfIv y) ∧
    List.Pairwise (fun a b : Iv => a.2 < b.1) (merge_intervals l) ∧
    sumDur (merge_intervals l) ≤ sumDur l ∧
    (sumDur (merge_intervals l) = sumDur l ↔
      List.Pairwise (fun a b : Iv => ¬ overlaps a b) l) := by
  have hperm : (sortStart l).Perm l := List.perm_insertionSort _ l
  have hsorted : List.Sorted (fun a b : Iv => a.1 ≤ b.1) (sortStart l) :=
    List.sorted_insertionSort _ l
  cases hm : sortStart l with
  | nil =>
    have hl : l = [] := (hm ▸ hperm).symm.eq_nil
    subst hl
    have hme : merge_intervals ([] : List Iv) = [] := rfl
    rw [hme]
    simp [sumDur_nil]
  | cons x xs =>
    rw [hm] at hperm hsorted
    have hme := merge_intervals_of_sorted hm
    have hwf' : ∀ y ∈ x :: xs, wfIv y := fun y hy => hwf y (hperm.mem_iff.1 hy)
    have hx : wfIv x := hwf' x (List.mem_cons_self x xs)
    have hxs : ∀ y ∈ xs, wfIv y := fun y hy => hwf' y (List.mem_cons_of_mem _ hy)
    obtain ⟨hmem, hsep⟩ := sweep_chain xs x hx hxs hsorted
    obtain ⟨hle, hiff⟩ := sweep_sum xs x hx hxs hsorted
    have hsum : sumDur (x :: xs) = sumDur l := sumDur_perm hperm
    rw [← sumDur_cons] at hle hiff
    have hpairiff : List.Pairwise (fun a b : Iv => ¬ overlaps a b) (x :: xs) ↔
        List.Pairwise (fun a b : Iv => ¬ overlaps a b) l :=
      hperm.pairwise_iff (fun hab hba => hab ((overlaps_comm _ _).1 hba))
    rw [hme]
    exact ⟨fun y hy => (hmem y hy).1, hsep, by omega,
      by rw [← hpairiff, ← hiff]; omega⟩

/-- On a list whose consecutive elements are already separated, the sweep is
the identity. -/
theorem sweep_of_sep : ∀ (x : Iv) (xs : List Iv),
    List.Pairwise (fun a b : Iv => a.2 < b.1) (x :: xs) → sweep x xs = x :: xs := by
  intro x xs
  induction xs generalizing x with
  | nil => intro _; rfl
  | cons c rest ih =>
    intro hp
    have h1 : x.2 < c.1 := (List.pairwise_cons.1 hp).1 c (List.mem_cons_self _ _)
    have h2 : ¬ c.1 ≤ x.2 := by omega
    simp [sweep, h2, ih c (List.pairwise_cons.1 hp).2]

/-- C1: for every list of intervals with start ≤ end, `merge_intervals`
returns a pairwise non-overlapping list sorted by start whose total duration
is at most the sum of the individual durations, with equality iff no two
inputs overlap; and the two overlapping intervals (T0, T0+10h) and
(T0+5h, T0+12h) merge to the single interval (T0, T0+12h) of duration
12 hours, not the 17-hour sum of the individual durations. -/
theorem C1_merge_intervals (l : List Iv) (hwf : ∀ x ∈ l, wfIv x) :
    List.Pairwise (fun a b : Iv => ¬ overlaps a b) (merge_intervals l) ∧
    List.Pairwise (fun a b : Iv => a.1 ≤ b.1) (merge_intervals l) ∧
    sumDur (merge_intervals l) ≤ sumDur l ∧
    (sumDur (merge_intervals l) = sumDur l ↔
      List.Pairwise (fun a b : Iv => ¬ overlaps a b) l) ∧
    merge_intervals [((0 : Int), 36000), (18000, 43200)] = [(0, 43200)] ∧
    sumDur (merge_intervals [((0 : Int), 36000), (18000, 43200)]) = 12 * 3600 ∧
    sumDur [((0 : Int), 36000), (18000, 43200)] = 17 * 3600 ∧
    (12 : Int) * 3600 ≠ 17 * 3600 := by
  obtain ⟨hmem, hsep, hle, hiff⟩ := merge_intervals_spec l hwf
  refine ⟨List.Pairwise.imp_of_mem ?_ hsep, List.Pairwise.imp_of_mem ?_ hsep,
    hle, hiff, by decide, by decide, by decide, by decide⟩
  · intro a b _ _ hab
    exact nonov_far a b hab
  · intro a b hma _ hab
    have := hmem a hma
    unfold wfIv at this
    omega

/-- Witness for C1 at the concrete scenario input. -/
theorem C1_witness :
    (∀ x ∈ [((0 : Int), 36000), ((18000 : Int), 43200)], wfIv x) ∧
    (sumDur (merge_intervals [((0 : Int), 36000), (18000, 43200)]) ≤
      sumDur [((0 : Int), 36000), (18000, 43200)]) :=
  ⟨by decide, (C1_merge_intervals [((0 : Int), 36000), (18000, 43200)]
    (by decide)).2.2.1⟩

/-- C8: `merge_intervals` is idempotent on well-formed inputs. -/
theorem C8_merge_idempotent (l : List Iv) (h : ∀ x ∈ l, wfIv x) :
    merge_intervals (merge_intervals l) = merge_intervals l := by
  obtain ⟨hmem, hsep, _, _⟩ := merge_intervals_spec l h
  have hsorted : List.Sorted (fun a b : Iv => a.1 ≤ b.1) (merge_intervals l) := by
    refine List.Pairwise.imp_of_mem ?_ hsep
    intro a b hma _ hab
    have := hmem a hma
    unfold wfIv at this
    omega
  have hss : sortStart (merge_intervals l) = merge_intervals l :=
    hsorted.insertionSort_eq
  cases hm : merge_intervals l with
  | nil => rfl
  | cons x xs =>
    rw [hm] at hss hsep
    have h1 : merge_intervals (x :: xs) = sweep x xs := merge_intervals_of_sorted hss
    rw [h1, sweep_of_sep x xs hsep]

/-- Witness for C8 at a concrete overlapping input. -/
theorem C8_witness :
    (∀ x ∈ [((0 : Int), 10), ((5 : Int), 12), ((20 : Int), 21)], wfIv x) ∧
    merge_intervals (merge_intervals [((0 : Int), 10), (5, 12), (20, 21)]) =
      merge_intervals [((0 : Int), 10), (5, 12), (20, 21)] :=
  ⟨by decide, C8_merge_idempotent [((0 : Int), 10), (5, 12), (20, 21)] (by decide)⟩

/-! ## Vessel data model — "scripts/comprehensive_vessel_analysis.py"

JSON sub-records become structures of `Option` fields; fields the scripts
branch on with `isinstance(..., list)` / `isinstance(..., dict)` become the
`SubInfo` sum below. -/

/-- One self-reported sub-record (an element of `selfReportedInfo`). -/
structure SelfRep where
  shipname : Option String
  flag : Option String
  shiptype : Option String
deriving DecidableEq

/-- One registry sub-record (an element of `registryInfo`). -/
structure RegEntry where
  imo : Option String
  vesselName : Option String
  flag : Option String
  lengthMeters : Option ℚ
  enginePowerKw : Option ℚ
  grossTonnage : Option ℚ
  gearType : Option String
deriving DecidableEq

/-- A JSON field that may be absent, a list of sub-records, or a single
sub-record dictionary. -/
inductive SubInfo (α : Type) where
  | missing : SubInfo α
  | ofList : List α → SubInfo α
  | ofDict : α → SubInfo α
deriving DecidableEq

/-- The `owner` dictionary of an `ownerOperatorInfo` entry; `none` models an
absent or empty (falsy) dictionary. -/
structure OwnerRec where
  name : Option String
  country : Option String
deriving DecidableEq

/-- One `ownerOperatorInfo` entry. -/
structure OwnEntry where
  owner : Option OwnerRec
deriving DecidableEq

/-- One `authorizationInfo` entry. -/
structure AuthEntry where
  country : Option String
  authorizedFrom : Option String
  authorizedTo : Option String
deriving DecidableEq

/-- An extracted authorization record, as assembled by
`extract_vessel_details` (the `authorizedFrom`/`authorizedTo` values were
checked truthy before the append). -/
structure AuthRec where
  country : Option String
  authorized_from : String
  authorized_to : String
deriving DecidableEq

/-- A vessel record (`vessel_data`) as returned by the lookup endpoints.
`ownerOperatorInfo`/`authorizationInfo` are read only when they are lists, so
`none` covers both an absent key and a non-list value. -/
structure Entry where
  id : Option String
  selfReportedInfo : SubInfo SelfRep
  registryInfo : SubInfo RegEntry
  ownerOperatorInfo : Option (List OwnEntry)
  authorizationInfo : Option (List AuthEntry)
deriving DecidableEq

/-- The canonical details dictionary built by `extract_vessel_details`. -/
structure Details where
  ssid : Option String
  name : String
  flag : Option String
  length : Option ℚ
  engine_power : Option ℚ
  tonnage : Option ℚ
  gear_type : Option String
  ship_type : Option String
  ownership : Option String
  authorization_info : List AuthRec
deriving DecidableEq

/-- `new or old` where the target field holds a plain string
(`details["name"]`): a truthy (non-empty) new value wins, otherwise the old
value is kept. -/
def pyOrStr (new : Option String) (old : String) : String :=
  match new with
  | some s => if s = "" then old else s
  | none => old

/-- `new or old` for an optional string field. -/
def pyOrOptStr (new old : Option String) : Option String :=
  match new with
  | some s => if s = "" then old else some s
  | none => old

/-- `new or old` for an optional numeric field (`0` is falsy in Python). -/
def pyOrOptNum (new old : Option ℚ) : Option ℚ :=
  match new with
  | some q => if q = 0 then old else some q
  | none => old

/-- Application of one self-reported sub-record to the details
(lines 169-175: `srep.get(...) or details[...]` per field). -/
def applySelf (s : SelfRep) (d : Details) : Details :=
  { d with name := pyOrStr s.shipname d.name,
           flag := pyOrOptStr s.flag d.flag,
           ship_type := pyOrOptStr s.shiptype d.ship_type }

/-- Application of one registry sub-record to the details
(lines 183-195: `entry.get(...) or details[...]` per field). -/
def applyReg (e : RegEntry) (d : Details) : Details :=
  { d with name := pyOrStr e.vesselName d.name,
           flag := pyOrOptStr e.flag d.flag,
           length := pyOrOptNum e.lengthMeters d.length,
           engine_power := pyOrOptNum e.enginePowerKw d.engine_power,
           tonnage := pyOrOptNum e.grossTonnage d.tonnage,
           gear_type := pyOrOptStr e.gearType d.gear_type }

/-- Owner strings `f"{owner_name} ({owner_country})"` collected from the
`ownerOperatorInfo` list (lines 200-208). -/
def ownerStrings (l : List OwnEntry) : List String :=
  l.filterMap (fun entry =>
    match entry.owner with
    | none => none
    | some o =>
      match o.name, o.country with
      | some nm, some co =>
        if nm ≠ "" ∧ co ≠ "" then some (nm ++ " (" ++ co ++ ")") else none
      | _, _ => none)

/-- Ownership extraction (lines 197-210). -/
def extractOwnership (info : Option (List OwnEntry)) (d : Details) : Details :=
  match info with
  | none => d
  | some l =>
    if l = [] then d
    else
      let owner_data := ownerStrings l
      if owner_data = [] then d
      else { d with ownership := some (String.intercalate "; " owner_data) }

/-- Authorization extraction (lines 212-222). -/
def extractAuth (info : Option (List AuthEntry)) (d : Details) : Details :=
  match info with
  | none => d
  | some l =>
    { d with authorization_info := l.filterMap (fun e =>
        match e.authorizedFrom, e.authorizedTo with
        | some f, some t => if f ≠ "" ∧ t ≠ "" then some ⟨e.country, f, t⟩ else none
        | _, _ => none) }

/-- The initial details dictionary (lines 152-163), before any sub-record is
scanned. -/
def defaultDetails : Details :=
  { ssid := none, name := "Unknown", flag := none, length := none,
    engine_power := none, tonnage := none, gear_type := none, ship_type := none,
    ownership := none, authorization_info := [] }

/-- `extract_vessel_details` (lines 136-224): scan the self-reported
sub-record (only the first element when a list), then every registry
sub-record, then ownership and authorization. -/
def extract_vessel_details : Option Entry → Details
  | none => defaultDetails
  | some vd =>
    let d0 := { defaultDetails with ssid := vd.id }
    let d1 :=
      match vd.selfReportedInfo with
      | .missing => d0
      | .ofList [] => d0
      | .ofList (s :: _) => applySelf s d0
      | .ofDict s => applySelf s d0
    let d2 :=
      match vd.registryInfo with
      | .missing => d1
      | .ofList regs => regs.foldl (fun d e => applyReg e d) d1
      | .ofDict r => applyReg r d1
    let d3 := extractOwnership vd.ownerOperatorInfo d2
    extractAuth vd.authorizationInfo d3

/-- The self-reported sub-records actually scanned: only the head of a list. -/
def selfRecs (vd : Entry) : List SelfRep :=
  match vd.selfReportedInfo with
  | .missing => []
  | .ofList [] => []
  | .ofList (s :: _) => [s]
  | .ofDict s => [s]

/-- The registry sub-records actually scanned: all of them. -/
def regRecs (vd : Entry) : List RegEntry :=
  match vd.registryInfo with
  | .missing => []
  | .ofList regs => regs
  | .ofDict r => [r]

/-- Left fold of the `or`-assignment over a scan sequence, string default. -/
def pyFoldStr (init : String) (vals : List (Option String)) : String :=
  vals.foldl (fun acc v => pyOrStr v acc) init

/-- Left fold of the `or`-assignment over a scan sequence, optional string. -/
def pyFoldOptStr (init : Option String) (vals : List (Option String)) : Option String :=
  vals.foldl (fun acc v => pyOrOptStr v acc) init

/-- Left fold of the `or`-assignment over a scan sequence, optional number. -/
def pyFoldOptNum (init : Option ℚ) (vals : List (Option ℚ)) : Option ℚ :=
  vals.foldl (fun acc v => pyOrOptNum v acc) init

/-- The spec's "first non-empty value per field" policy, defined from the
spec's words for comparison with the code's behaviour. -/
def firstNonEmptyStr (dflt : String) : List (Option String) → String
  | [] => dflt
  | v :: rest =>
    match v with
    | some s => if s = "" then firstNonEmptyStr dflt rest else s
    | none => firstNonEmptyStr dflt rest

@[simp] theorem applyReg_name (e : RegEntry) (d : Details) :
    (applyReg e d).name = pyOrStr e.vesselName d.name := rfl

@[simp] theorem applyReg_flag (e : RegEntry) (d : Details) :
    (applyReg e d).flag = pyOrOptStr e.flag d.flag := rfl

@[simp] theorem applyReg_length (e : RegEntry) (d : Details) :
    (applyReg e d).length = pyOrOptNum e.lengthMeters d.length := rfl

@[simp] theorem applyReg_engine_power (e : RegEntry) (d : Details) :
    (applyReg e d).engine_power = pyOrOptNum e.enginePowerKw d.engine_power := rfl

@[simp] theorem applyReg_tonnage (e : RegEntry) (d : Details) :
    (applyReg e d).tonnage = pyOrOptNum e.grossTonnage d.tonnage := rfl

@[simp] theorem applyReg_gear_type (e : RegEntry) (d : Details) :
    (applyReg e d).gear_type = pyOrOptStr e.gearType d.gear_type := rfl

@[simp] theorem applyReg_ship_type (e : RegEntry) (d : Details) :
    (applyReg e d).ship_type = d.ship_type := rfl

@[simp] theorem applyReg_ssid (e : RegEntry) (d : Details) :
    (applyReg e d).ssid = d.ssid := rfl

@[simp] theorem applySelf_name (s : SelfRep) (d : Details) :
    (applySelf s d).name = pyOrStr s.shipname d.name := rfl

@[simp] theorem applySelf_flag (s : SelfRep) (d : Details) :
    (applySelf s d).flag = pyOrOptStr s.flag d.flag := rfl

@[simp] theorem applySelf_ship_type (s : SelfRep) (d : Details) :
    (applySelf s d).ship_type = pyOrOptStr s.shiptype d.ship_type := rfl

@[simp] theorem applySelf_length (s : SelfRep) (d : Details) :
    (applySelf s d).length = d.length := rfl

@[simp] theorem applySelf_engine_power (s : SelfRep) (d : Details) :
    (applySelf s d).engine_power = d.engine_power := rfl

@[simp] theorem applySelf_tonnage (s : SelfRep) (d : Details) :
    (applySelf s d).tonnage = d.tonnage := rfl

@[simp] theorem applySelf_gear_type (s : SelfRep) (d : Details) :
    (applySelf s d).gear_type = d.gear_type := rfl

@[simp] theorem applySelf_ssid (s : SelfRep) (d : Details) :
    (applySelf s d).ssid = d.ssid := rfl

theorem regFold_eq (regs : List RegEntry) (d : Details) :
    regs.foldl (fun d e => applyReg e d) d =
      { d with name := pyFoldStr d.name (regs.map RegEntry.vesselName),
               flag := pyFoldOptStr d.flag (regs.map RegEntry.flag),
               length := pyFoldOptNum d.length (regs.map RegEntry.lengthMeters),
               engine_power := pyFoldOptNum d.engine_power (regs.map RegEntry.enginePowerKw),
               tonnage := pyFoldOptNum d.tonnage (regs.map RegEntry.grossTonnage),
               gear_type := pyFoldOptStr d.gear_type (regs.map RegEntry.gearType) } := by
  induction regs generalizing d with
  | nil => simp [pyFoldStr, pyFoldOptStr, pyFoldOptNum]
  | cons e rest ih =>
    simp only [List.foldl_cons, List.map_cons, ih (applyReg e d)]
    rfl

/-- Field-wise characterization of `extract_vessel_details`: every attribute
is the left fold of the `or`-assignment over its scan sequence (self-reported
first, then registry). -/
theorem extract_fields (vd : Entry) :
    (extract_vessel_details (some vd)).name =
      pyFoldStr "Unknown" ((selfRecs vd).map SelfRep.shipname ++
        (regRecs vd).map RegEntry.vesselName) ∧
    (extract_vessel_details (some vd)).flag =
      pyFoldOptStr none ((selfRecs vd).map SelfRep.flag ++
        (regRecs vd).map RegEntry.flag) ∧
    (extract_vessel_details (some vd)).ship_type =
      pyFoldOptStr none ((selfRecs vd).map SelfRep.shiptype) ∧
    (extract_vessel_details (some vd)).length =
      pyFoldOptNum none ((regRecs vd).map RegEntry.lengthMeters) ∧
    (extract_vessel_details (some vd)).engine_power =
      pyFoldOptNum none ((regRecs vd).map RegEntry.enginePowerKw) ∧
    (extract_vessel_details (some vd)).tonnage =
      pyFoldOptNum none ((regRecs vd).map RegEntry.grossTonnage) ∧
    (extract_vessel_details (some vd)).gear_type =
      pyFoldOptStr none ((regRecs vd).map RegEntry.gearType) := by
  obtain ⟨id, sinfo, rinfo, oinfo, ainfo⟩ := vd
  have hown : ∀ (info : Option (List OwnEntry)) (d : Details),
      (extractOwnership info d).name = d.name ∧
      (extractOwnership info d).flag = d.flag ∧
      (extractOwnership info d).ship_type = d.ship_type ∧
      (extractOwnership info d).length = d.length ∧
      (extractOwnership info d).engine_power = d.engine_power ∧
      (extractOwnership info d).tonnage = d.tonnage ∧
      (extractOwnership info d).gear_type = d.gear_type := by
    intro info d
    cases info with
    | none => exact ⟨rfl, rfl, rfl, rfl, rfl, rfl, rfl⟩
    | some l =>
      unfold extractOwnership
      dsimp only
      split
      · exact ⟨rfl, rfl, rfl, rfl, rfl, rfl, rfl⟩
      · split
        · exact ⟨rfl, rfl, rfl, rfl, rfl, rfl, rfl⟩
        · exact ⟨rfl, rfl, rfl, rfl, rfl, rfl, rfl⟩
  have hauth : ∀ (info : Option (List AuthEntry)) (d : Details),
      (extractAuth info d).name = d.name ∧
      (extractAuth info d).flag = d.flag ∧
      (extractAuth info d).ship_type = d.ship_type ∧
      (extractAuth info d).length = d.length ∧
      (extractAuth info d).engine_power = d.engine_power ∧
      (extractAuth info d).tonnage = d.tonnage ∧
      (extractAuth info d).gear_type = d.gear_type := by
    intro info d
    cases info with
    | none => exact ⟨rfl, rfl, rfl, rfl, rfl, rfl, rfl⟩
    | some l => exact ⟨rfl, rfl, rfl, rfl, rfl, rfl, rfl⟩
  cases sinfo with
  | missing =>
    cases rinfo with
    | missing =>
      simp [extract_vessel_details, selfRecs, regRecs, hown, hauth,
        pyFoldStr, pyFoldOptStr, pyFoldOptNum, defaultDetails]
    | ofList regs =>
      cases regs with
      | nil =>
        simp [extract_vessel_details, selfRecs, regRecs, hown, hauth,
          pyFoldStr, pyFoldOptStr, pyFoldOptNum, defaultDetails]
      | cons r rs =>
        simp [extract_vessel_details, selfRecs, regRecs, hown, hauth,
          regFold_eq, pyFoldStr, pyFoldOptStr, pyFoldOptNum, defaultDetails]
    | ofDict r =>
      simp [extract_vessel_details, selfRecs, regRecs, hown, hauth,
        pyFoldStr, pyFoldOptStr, pyFoldOptNum, defaultDetails]
  | ofList srecs =>
    cases srecs with
    | nil =>
      cases rinfo with
      | missing =>
        simp [extract_vessel_details, selfRecs, regRecs, hown, hauth,
          pyFoldStr, pyFoldOptStr, pyFoldOptNum, defaultDetails]
      | ofList regs =>
        simp [extract_vessel_details, selfRecs, regRecs, hown, hauth,
          regFold_eq, pyFoldStr, pyFoldOptStr, pyFoldOptNum, defaultDetails]
      | ofDict r =>
        simp [extract_vessel_details, selfRecs, regRecs, hown, hauth,
          pyFoldStr, pyFoldOptStr, pyFoldOptNum, defaultDetails]
    | cons s ss =>
      cases rinfo with
      | missing =>
        simp [extract_vessel_details, selfRecs, regRecs, hown, hauth,
          pyFoldStr, pyFoldOptStr, pyFoldOptNum, defaultDetails]
      | ofList regs =>
        simp [extract_vessel_details, selfRecs, regRecs, hown, hauth,
          regFold_eq, pyFoldStr, pyFoldOptStr, pyFoldOptNum, defaultDetails]
      | ofDict r =>
        simp [extract_vessel_details, selfRecs, regRecs, hown, hauth,
          pyFoldStr, pyFoldOptStr, pyFoldOptNum, defaultDetails]
  | ofDict s =>
    cases rinfo with
    | missing =>
      simp [extract_vessel_details, selfRecs, regRecs, hown, hauth,
        pyFoldStr, pyFoldOptStr, pyFoldOptNum, defaultDetails]
    | ofList regs =>
      simp [extract_vessel_details, selfRecs, regRecs, hown, hauth,
        regFold_eq, pyFoldStr, pyFoldOptStr, pyFoldOptNum, defaultDetails]
    | ofDict r =>
      simp [extract_vessel_details, selfRecs, regRecs, hown, hauth,
        pyFoldStr, pyFoldOptStr, pyFoldOptNum, defaultDetails]

/-- A vessel record whose self-reported name is "ALPHA" and whose registry
name is "BETA": the first non-empty name encountered is "ALPHA". -/
def cexEntry : Entry :=
  { id := some "v1",
    selfReportedInfo := .ofList [{ shipname := some "ALPHA", flag := some "SEN",
                                   shiptype := none }],
    registryInfo := .ofList [{ imo := none, vesselName := some "BETA", flag := none,
                               lengthMeters := none, enginePowerKw := none,
                               grossTonnage := none, gearType := none }],
    ownerOperatorInfo := none,
    authorizationInfo := none }

/-- C3 counterexample: `extract_vessel_details` does NOT keep the first
non-empty value — the registry sub-record scanned later overwrites the name
"ALPHA" already populated from the self-reported sub-record with "BETA". -/
theorem C3_counterexample :
    (extract_vessel_details (some cexEntry)).name = "BETA" ∧
    firstNonEmptyStr "Unknown" ((selfRecs cexEntry).map SelfRep.shipname ++
      (regRecs cexEntry).map RegEntry.vesselName) = "ALPHA" ∧
    ("BETA" : String) ≠ "ALPHA" :=
  ⟨rfl, rfl, by decide⟩

/-- C3 amended: canonical-field extraction is a fill-forward fold in which a
later sub-record with a non-empty value ALWAYS overwrites the field (last
non-empty value wins), while a later empty value never erases a populated
field: every attribute equals the `or`-fold over its scan sequence, empty
values leave the accumulator unchanged, and a final non-empty value decides
the field. -/
theorem C3_amended (vd : Entry) :
    ((extract_vessel_details (some vd)).name =
        pyFoldStr "Unknown" ((selfRecs vd).map SelfRep.shipname ++
          (regRecs vd).map RegEntry.vesselName) ∧
      (extract_vessel_details (some vd)).flag =
        pyFoldOptStr none ((selfRecs vd).map SelfRep.flag ++
          (regRecs vd).map RegEntry.flag) ∧
      (extract_vessel_details (some vd)).ship_type =
        pyFoldOptStr none ((selfRecs vd).map SelfRep.shiptype) ∧
      (extract_vessel_details (some vd)).length =
        pyFoldOptNum none ((regRecs vd).map RegEntry.lengthMeters) ∧
      (extract_vessel_details (some vd)).engine_power =
        pyFoldOptNum none ((regRecs vd).map RegEntry.enginePowerKw) ∧
      (extract_vessel_details (some vd)).tonnage =
        pyFoldOptNum none ((regRecs vd).map RegEntry.grossTonnage) ∧
      (extract_vessel_details (some vd)).gear_type =
        pyFoldOptStr none ((regRecs vd).map RegEntry.gearType)) ∧
    (∀ old : String, pyOrStr none old = old ∧ pyOrStr (some "") old = old) ∧
    (∀ old : Option String, pyOrOptStr none old = old ∧ pyOrOptStr (some "") old = old) ∧
    (∀ old : Option ℚ, pyOrOptNum none old = old ∧ pyOrOptNum (some 0) old = old) ∧
    (∀ (vs : List (Option String)) (init s : String), s ≠ "" →
      pyFoldStr init (vs ++ [some s]) = s) ∧
    (∀ (vs : List (Option String)) (init : Option String) (s : String), s ≠ "" →
      pyFoldOptStr init (vs ++ [some s]) = some s) ∧
    (∀ (vs : List (Option ℚ)) (init : Option ℚ) (q : ℚ), q ≠ 0 →
      pyFoldOptNum init (vs ++ [some q]) = some q) := by
  refine ⟨extract_fields vd, ?_, ?_, ?_, ?_, ?_, ?_⟩
  · intro old; exact ⟨rfl, rfl⟩
  · intro old; exact ⟨rfl, rfl⟩
  · intro old
    refine ⟨rfl, ?_⟩
    simp [pyOrOptNum]
  · intro vs init s hs
    simp [pyFoldStr, List.foldl_append, pyOrStr, hs]
  · intro vs init s hs
    simp [pyFoldOptStr, List.foldl_append, pyOrOptStr, hs]
  · intro vs init q hq
    simp [pyFoldOptNum, List.foldl_append, pyOrOptNum, hq]

/-- Witness for C3 amended at the counterexample record. -/
theorem C3_amended_witness :
    (extract_vessel_details (some cexEntry)).name =
      pyFoldStr "Unknown" ((selfRecs cexEntry).map SelfRep.shipname ++
        (regRecs cexEntry).map RegEntry.vesselName) :=
  (C3_amended cexEntry).1.1

/-! ## Entity resolver — `lookup_vessel_by_identifiers`
("scripts/comprehensive_vessel_analysis.py" lines 55-94)

The network lookups are injected: `imoResp` and `nameResp` are the responses
the two search queries would return (`none` models a failed request), and
`idResp` the response of the by-id lookup. The input `imo` is modelled by its
string form `str(imo)`. -/

/-- A search response: the `entries` list. -/
structure SearchData where
  entries : List Entry
deriving DecidableEq

/-- The scan of the name-query candidates against the supplied registry
number (lines 70-80): a candidate whose `registryInfo` list contains a
matching `imo` is recorded but the scan continues (the `break` only leaves
the inner loop, so a later match re-assigns `vessel_data`); a candidate whose
`registryInfo` is a single dictionary with a matching `imo` is recorded and
the scan stops. An absent `registryInfo` defaults to the empty dictionary. -/
def nameScan (target : String) : Option Entry → List Entry → Option Entry
  | acc, [] => acc
  | acc, e :: rest =>
    match e.registryInfo with
    | .ofList regs =>
      if regs.any (fun r => r.imo = some target) then nameScan target (some e) rest
      else nameScan target acc rest
    | .ofDict r =>
      if r.imo = some target then some e else nameScan target acc rest
    | .missing => nameScan target acc rest

/-- Strategy 1 (lines 60-63): when `imo` is truthy and the registry-number
query returned a non-empty `entries` list, take its first entry. -/
def lookupStep1 (imo : Option String) (imoResp : Option SearchData) : Option Entry :=
  if truthyStr imo then
    match imoResp with
    | some d => d.entries.head?
    | none => none
  else none

/-- Strategy 2 (lines 66-83): when the name is truthy and not the sentinel
"Unknown" and the name query returned entries, prefer (per `nameScan`) an
entry whose registry `imo` equals the input, else take the first entry. -/
def lookupStep2 (imo name : Option String) (nameResp : Option SearchData) : Option Entry :=
  if truthyStr name ∧ name ≠ some "Unknown" then
    match nameResp with
    | some d =>
      match d.entries with
      | [] => none
      | es =>
        let vd := if truthyStr imo then nameScan (imo.getD "") none es else none
        match vd with
        | some e => some e
        | none => es.head?
    | none => none
  else none

/-- `lookup_vessel_by_identifiers` (lines 55-94): strategies in order, first
success wins; the returned ssid is the found entry's `id`. -/
def lookup_vessel_by_identifiers (imo name ssid : Option String)
    (imoResp nameResp : Option SearchData) (idResp : Option Entry) :
    Option Entry × Option String :=
  let vd1 := lookupStep1 imo imoResp
  let vd2 :=
    match vd1 with
    | some e => some e
    | none => lookupStep2 imo name nameResp
  let vd3 :=
    match vd2 with
    | some e => some e
    | none => if truthyStr ssid then idResp else none
  (vd3, vd3.bind Entry.id)

/-- A registry sub-record carrying only the registry number `n`. -/
def regOnlyImo (n : String) : RegEntry :=
  { imo := some n, vesselName := none, flag := none, lengthMeters := none,
    enginePowerKw := none, grossTonnage := none, gearType := none }

/-- Candidate entries used by the C4 counterexample: `entryA` carries the
registry number "111" that is also the query input, `entryB` carries "222". -/
def entryA : Entry :=
  { id := some "idA",
    selfReportedInfo := .missing,
    registryInfo := .ofList [regOnlyImo "111"],
    ownerOperatorInfo := none, authorizationInfo := none }

def entryB : Entry :=
  { id := some "idB",
    selfReportedInfo := .missing,
    registryInfo := .ofList [regOnlyImo "222"],
    ownerOperatorInfo := none, authorizationInfo := none }

/-- C4 counterexample: with registry number "111" supplied and the
registry-number query returning the two candidates `[entryB, entryA]`, the
resolver returns `entryB` — the first candidate — even though `entryA` is the
candidate whose embedded registry-number field equals the input; no
exact-match tie-break is applied to the registry-number query. -/
theorem C4_counterexample :
    (lookup_vessel_by_identifiers (some "111") (some "SOME NAME") none
        (some ⟨[entryB, entryA]⟩) none none).1 = some entryB ∧
    entryB.registryInfo = SubInfo.ofList [regOnlyImo "222"] ∧
    entryA.registryInfo = SubInfo.ofList [regOnlyImo "111"] ∧
    entryB ≠ entryA :=
  ⟨rfl, rfl, rfl, by decide⟩

/-- C4 amended: when a registry number is supplied (truthy) and the
registry-number query returns at least one candidate, the resolver returns
the FIRST registry-number candidate — never falling through to the name query
or the id lookup, whatever they would return and whatever the candidates'
embedded registry-number fields are; the exact-match preference exists only
in the name-query fallback. -/
theorem C4_amended (imo name ssid : Option String) (e : Entry) (rest : List Entry)
    (nameResp : Option SearchData) (idResp : Option Entry)
    (himo : truthyStr imo = true) :
    lookup_vessel_by_identifiers imo name ssid (some ⟨e :: rest⟩) nameResp idResp =
      (some e, e.id) := by
  unfold lookup_vessel_by_identifiers lookupStep1
  rw [himo]
  rfl

/-- Witness for C4 amended at a concrete input. -/
theorem C4_amended_witness :
    truthyStr (some "111") = true ∧
    lookup_vessel_by_identifiers (some "111") (some "SOME NAME") none
        (some ⟨[entryB, entryA]⟩) none none = (some entryB, entryB.id) :=
  ⟨by decide, C4_amended (some "111") (some "SOME NAME") none entryB [entryA]
    none none (by decide)⟩

/-! ## Signal extractors — "scripts/comprehensive_vessel_analysis.py"

Event timestamps are modelled as already-parsed integer instants; a field may
be absent (`"start" in event` fails), malformed (`fromisoformat` raises and
the event is skipped) or parsed. -/

/-- A timestamp field of an event record. -/
inductive TsField where
  | absent : TsField
  | malformed : TsField
  | ok : Int → TsField
deriving DecidableEq

/-- An event record with a start and an end timestamp (`stop` stands for the
JSON key "end", a reserved word). -/
structure FEvent where
  start : TsField
  stop : TsField
deriving DecidableEq

/-- The interval contributed by an event: present only when both timestamp
fields are present and parse. -/
def eventInterval (e : FEvent) : Option Iv :=
  match e.start, e.stop with
  | .ok s, .ok t => some (s, t)
  | _, _ => none

/-- Banker's rounding of a rational to an integer, the tie rule of Python's
`round` (Python rounds binary floats, so exact decimal ties can differ at the
float level; no claim depends on a tie case). -/
def roundHalfEven (x : ℚ) : ℤ :=
  let f := ⌊x⌋
  let r := x - f
  if r < 1/2 then f
  else if 1/2 < r then f + 1
  else if f % 2 = 0 then f else f + 1

/-- `round(x, 2)`. -/
def pyRound2 (x : ℚ) : ℚ := (roundHalfEven (x * 100) : ℚ) / 100

/-- `round(x, 1)`. -/
def pyRound1 (x : ℚ) : ℚ := (roundHalfEven (x * 10) : ℚ) / 10

/-- Threshold settings (lines 25-29). -/
def FISHING_HOURS_THRESHOLD : ℚ := 200
def ENGINE_POWER_THRESHOLD : ℚ := 3000
def VESSEL_LENGTH_THRESHOLD : ℚ := 50
def FOREIGN_PORT_VISIT_THRESHOLD : ℚ := 3/10
def AIS_GAP_THRESHOLD : ℚ := 48

/-- The distinct elements of a list in first-occurrence order — the key order
of a Python `Counter`/dict built by repeated increments. -/
def firstOccur (l : List String) : List String :=
  l.foldl (fun acc x => if x ∈ acc then acc else acc ++ [x]) []

instance : IsTotal (String × Nat) (fun a b => b.2 ≤ a.2) := ⟨fun a b => le_total b.2 a.2⟩

instance : IsTrans (String × Nat) (fun a b => b.2 ≤ a.2) :=
  ⟨fun _ _ _ h1 h2 => le_trans h2 h1⟩

/-- `Counter(flags).most_common()`: items sorted by count descending;
`sorted` with a key is stable, so ties keep first-insertion order, which the
stable `insertionSort` reproduces. -/
def mostCommon (flags : List String) : List (String × Nat) :=
  ((firstOccur flags).map (fun f => (f, flags.count f))).insertionSort
    (fun a b => b.2 ≤ a.2)

/-- The anchorage dictionary of a port-visit event. -/
structure Anchorage where
  flag : Option String
deriving DecidableEq

/-- A port-visit event record. -/
structure Visit where
  anchorage : Option Anchorage
deriving DecidableEq

/-- The anchorage flag counted by `analyze_port_visits`: present only when
the event has an `anchorage` dictionary with a `flag` key. -/
def visitFlag (v : Visit) : Option String :=
  match v.anchorage with
  | some a => a.flag
  | none => none

/-- The port-visit signal bundle. -/
structure PortData where
  total_visits : Nat
  foreign_visits : Nat
  foreign_visit_pct : ℚ
  countries_visited : List String
  most_visited_country : Option String
deriving DecidableEq

/-- `analyze_port_visits` (lines 346-378): visits without an anchorage flag
enter `total_visits` but no country counter, and foreign visits are computed
as `total - count("SEN")`. -/
def analyze_port_visits (port_visits : List Visit) : PortData :=
  if port_visits = [] then
    { total_visits := 0, foreign_visits := 0, foreign_visit_pct := 0,
      countries_visited := [], most_visited_country := none }
  else
    let total_visits := port_visits.length
    let counted := port_visits.filterMap visitFlag
    let senegal_visits := counted.count "SEN"
    let foreign_visits := total_visits - senegal_visits
    let foreign_visit_pct : ℚ :=
      if total_visits > 0 then (foreign_visits : ℚ) / (total_visits : ℚ) else 0
    let most_common5 := (mostCommon counted).take 5
    { total_visits := total_visits,
      foreign_visits := foreign_visits,
      foreign_visit_pct := pyRound2 foreign_visit_pct,
      countries_visited := most_common5.map (fun p => p.1 ++ ":" ++ toString p.2),
      most_visited_country := most_common5.head?.map Prod.fst }

/-- The fishing-activity signal bundle. -/
structure FishingData where
  total_hours : ℚ
  events_count : Nat
  avg_duration_hours : ℚ
deriving DecidableEq

/-- `analyze_fishing_activity` (lines 445-473). -/
def analyze_fishing_activity (fishing_events : List FEvent) : FishingData :=
  if fishing_events = [] then ⟨0, 0, 0⟩
  else
    let events_count := fishing_events.length
    let total_hours : ℚ :=
      ((fishing_events.filterMap eventInterval).map (fun iv => (dur iv : ℚ) / 3600)).sum
    let avg_duration :=
      if events_count > 0 then total_hours / (events_count : ℚ) else 0
    ⟨pyRound1 total_hours, events_count, pyRound1 avg_duration⟩

/-- The AIS-gap signal bundle. -/
structure GapData where
  total_gaps : Nat
  total_gap_hours : ℚ
  max_gap_hours : ℚ
  suspicious_gaps : Nat
deriving DecidableEq

/-- `analyze_ais_gaps` (lines 380-415). -/
def analyze_ais_gaps (ais_gaps : List FEvent) : GapData :=
  if ais_gaps = [] then ⟨0, 0, 0, 0⟩
  else
    let durs := (ais_gaps.filterMap eventInterval).map (fun iv => (dur iv : ℚ) / 3600)
    { total_gaps := ais_gaps.length,
      total_gap_hours := pyRound1 durs.sum,
      max_gap_hours := pyRound1 (durs.foldl max 0),
      suspicious_gaps := (durs.filter (fun d => d > AIS_GAP_THRESHOLD)).length }

/-- The second vessel of an encounter event. -/
structure Vessel2 where
  flag : Option String
deriving DecidableEq

/-- An encounter event record. -/
structure Encounter where
  vessel2 : Option Vessel2
deriving DecidableEq

/-- The counterpart flag of an encounter: present only when the event has a
`vessel2` dictionary with a `flag` key. -/
def encounterFlag (e : Encounter) : Option String :=
  match e.vessel2 with
  | some v => v.flag
  | none => none

/-- The encounter signal bundle. -/
structure EncounterData where
  total_encounters : Nat
  foreign_encounters : Nat
  encounter_vessel_flags : List String
deriving DecidableEq

/-- `analyze_encounters` (lines 417-443). -/
def analyze_encounters (encounters : List Encounter) : EncounterData :=
  if encounters = [] then ⟨0, 0, []⟩
  else
    let foreignFlags := (encounters.filterMap encounterFlag).filter (fun f => f ≠ "SEN")
    { total_encounters := encounters.length,
      foreign_encounters := foreignFlags.length,
      encounter_vessel_flags :=
        ((mostCommon foreignFlags).take 5).map (fun p => p.1 ++ ":" ++ toString p.2) }

/-- A flag-history entry. -/
structure FlagEntry where
  flag : Option String
deriving DecidableEq

/-- The flag-history signal bundle. -/
structure FlagHistoryData where
  flag_changes : Nat
  previous_flags : List String
  flag_change_pattern : Option String
deriving DecidableEq

/-- `analyze_flag_history` (lines 475-502). Python iterates `set(flags)` in
an unspecified order; the model fixes first-occurrence order (no claim
depends on the order of `previous_flags`). -/
def analyze_flag_history (flag_history : List FlagEntry) : FlagHistoryData :=
  if flag_history = [] then ⟨0, [], none⟩
  else
    let flags := flag_history.filterMap FlagEntry.flag
    { flag_changes := if flags.length > 0 then flags.length - 1 else 0,
      previous_flags := (firstOccur flags).filter (fun f => f ≠ "SEN"),
      flag_change_pattern :=
        if flags ≠ [] then some (String.intercalate " → " flags) else none }

/-! ## Classifier — "scripts/comprehensive_vessel_analysis.py" lines 567-626

The f-string reason messages are abstracted to tagged values carrying the
interpolated data. -/

/-- A classification reason, tagging the message appended by each rule. -/
inductive Reason where
  | nonSenegaleseFlag : String → Reason
  | previousFlags : List String → Reason
  | highEnginePower : ℚ → Reason
  | largeVesselLength : ℚ → Reason
  | lowFishingActivity : ℚ → Reason
  | foreignPortVisits : ℚ → Reason
  | suspiciousAisGaps : Nat → Reason
  | foreignOwnership : String → Reason
  | noVesselData : Reason
  | processingError : String → Reason
deriving DecidableEq

/-- Reasons appended by the secondary (scored) rules, as opposed to the flag
mismatch, the no-data message and the batch error message. -/
def Reason.isSecondary : Reason → Bool
  | .previousFlags _ => true
  | .highEnginePower _ => true
  | .largeVesselLength _ => true
  | .lowFishingActivity _ => true
  | .foreignPortVisits _ => true
  | .suspiciousAisGaps _ => true
  | .foreignOwnership _ => true
  | _ => false

/-- The running classification state: the label and the reasons list. -/
structure CState where
  classification : String
  reasons : List Reason
deriving DecidableEq

/-- Step 4's starting state (lines 568-569). -/
def initState : CState := ⟨"Genuine Senegalese", []⟩

/-- The common body of every secondary rule: append the reason, and raise
"Genuine Senegalese" to "Suspect" (any other label is left unchanged). -/
def escalate (s : CState) (r : Reason) : CState :=
  ⟨if s.classification = "Genuine Senegalese" then "Suspect" else s.classification,
   s.reasons ++ [r]⟩

/-- Python `needle in hay` on strings. -/
def strContains (hay needle : String) : Bool :=
  (List.range (hay.length + 1)).any
    (fun i => ((hay.toList.drop i).take needle.length) = needle.toList)

/-- The owner-country extraction (lines 612-621): keyword search in the
lowered ownership string; `None` when the ownership string is falsy or no
keyword matches. -/
def owner_country_of (ownership : Option String) : Option String :=
  match ownership with
  | some s =>
    if s ≠ "" then
      let info := s.toLower
      if strContains info "spain" || strContains info "(esp)" then some "ESP"
      else if strContains info "china" || strContains info "(chn)" then some "CHN"
      else if strContains info "france" || strContains info "(fra)" then some "FRA"
      else none
    else none
  | none => none

/-- Rule 1 (lines 572-574): a truthy non-"SEN" flag sets the label to
"Foreign" directly. -/
def checkFlag (d : Details) (s : CState) : CState :=
  match d.flag with
  | some f =>
    if f ≠ "" ∧ f ≠ "SEN" then ⟨"Foreign", s.reasons ++ [.nonSenegaleseFlag f]⟩ else s
  | none => s

/-- Rule 2 (lines 577-580): previous flags in the flag history. -/
def checkFlagHistory (fh : Option FlagHistoryData) (s : CState) : CState :=
  match fh with
  | some x =>
    if x.previous_flags ≠ [] then escalate s (.previousFlags x.previous_flags) else s
  | none => s

/-- Rule 3 (lines 583-586): engine power above threshold. -/
def checkEnginePower (d : Details) (s : CState) : CState :=
  match d.engine_power with
  | some p =>
    if p ≠ 0 ∧ p > ENGINE_POWER_THRESHOLD then escalate s (.highEnginePower p) else s
  | none => s

/-- Rule 4 (lines 588-591): vessel length above threshold. -/
def checkLength (d : Details) (s : CState) : CState :=
  match d.length with
  | some q =>
    if q ≠ 0 ∧ q > VESSEL_LENGTH_THRESHOLD then escalate s (.largeVesselLength q) else s
  | none => s

/-- Rule 5 (lines 594-597): total fishing hours below threshold. -/
def checkFishing (fd : Option FishingData) (s : CState) : CState :=
  match fd with
  | some x =>
    if x.total_hours < FISHING_HOURS_THRESHOLD then
      escalate s (.lowFishingActivity x.total_hours)
    else s
  | none => s

/-- Rule 6 (lines 600-603): foreign port-visit fraction above threshold. -/
def checkPorts (pd : Option PortData) (s : CState) : CState :=
  match pd with
  | some x =>
    if x.foreign_visit_pct > FOREIGN_PORT_VISIT_THRESHOLD then
      escalate s (.foreignPortVisits x.foreign_visit_pct)
    else s
  | none => s

/-- Rule 7 (lines 606-609): suspicious AIS gaps present. -/
def checkGaps (gd : Option GapData) (s : CState) : CState :=
  match gd with
  | some x =>
    if x.suspicious_gaps > 0 then escalate s (.suspiciousAisGaps x.suspicious_gaps) else s
  | none => s

/-- Rule 8 (lines 612-626): foreign ownership keyword match. -/
def checkOwnership (d : Details) (s : CState) : CState :=
  match owner_country_of d.ownership with
  | some c => if c ≠ "" ∧ c ≠ "SEN" then escalate s (.foreignOwnership c) else s
  | none => s

/-- Step 4 of `comprehensive_vessel_analysis` (lines 567-626): the rules in
program order. -/
def classify_vessel (d : Details) (fh : Option FlagHistoryData)
    (fd : Option FishingData) (pd : Option PortData) (gd : Option GapData) : CState :=
  checkOwnership d (checkGaps gd (checkPorts pd (checkFishing fd
    (checkLength d (checkEnginePower d (checkFlagHistory fh (checkFlag d initState)))))))

/-- The transition discipline of a secondary rule: the label is unchanged
unless it is "Genuine Senegalese", in which case it may only become
"Suspect"; reasons are only ever appended. -/
def SecondaryStep (step : CState → CState) : Prop :=
  ∀ s : CState,
    ((step s).classification = s.classification ∨
      (s.classification = "Genuine Senegalese" ∧ (step s).classification = "Suspect")) ∧
    ∃ t, (step s).reasons = s.reasons ++ t

theorem escalate_classification (s : CState) (r : Reason) :
    (escalate s r).classification = s.classification ∨
      (s.classification = "Genuine Senegalese" ∧ (escalate s r).classification = "Suspect") := by
  unfold escalate
  by_cases h : s.classification = "Genuine Senegalese" <;> simp [h]

theorem escalate_reasons (s : CState) (r : Reason) :
    (escalate s r).reasons = s.reasons ++ [r] := rfl

theorem checkFlagHistory_secondary (fh : Option FlagHistoryData) :
    SecondaryStep (checkFlagHistory fh) := by
  intro s
  unfold checkFlagHistory
  cases fh with
  | none => exact ⟨Or.inl rfl, [], by simp⟩
  | some x =>
    dsimp only
    split
    · exact ⟨escalate_classification s _, [_], escalate_reasons s _⟩
    · exact ⟨Or.inl rfl, [], by simp⟩

theorem checkEnginePower_secondary (d : Details) :
    SecondaryStep (checkEnginePower d) := by
  intro s
  unfold checkEnginePower
  cases d.engine_power with
  | none => exact ⟨Or.inl rfl, [], by simp⟩
  | some p =>
    dsimp only
    split
    · exact ⟨escalate_classification s _, [_], escalate_reasons s _⟩
    · exact ⟨Or.inl rfl, [], by simp⟩

theorem checkLength_secondary (d : Details) :
    SecondaryStep (checkLength d) := by
  intro s
  unfold checkLength
  cases d.length with
  | none => exact ⟨Or.inl rfl, [], by simp⟩
  | some q =>
    dsimp only
    split
    · exact ⟨escalate_classification s _, [_], escalate_reasons s _⟩
    · exact ⟨Or.inl rfl, [], by simp⟩

theorem checkFishing_secondary (fd : Option FishingData) :
    SecondaryStep (checkFishing fd) := by
  intro s
  unfold checkFishing
  cases fd with
  | none => exact ⟨Or.inl rfl, [], by simp⟩
  | some x =>
    dsimp only
    split
    · exact ⟨escalate_classification s _, [_], escalate_reasons s _⟩
    · exact ⟨Or.inl rfl, [], by simp⟩

theorem checkPorts_secondary (pd : Option PortData) :
    SecondaryStep (checkPorts pd) := by
  intro s
  unfold checkPorts
  cases pd with
  | none => exact ⟨Or.inl rfl, [], by simp⟩
  | some x =>
    dsimp only
    split
    · exact ⟨escalate_classification s _, [_], escalate_reasons s _⟩
    · exact ⟨Or.inl rfl, [], by simp⟩

theorem checkGaps_secondary (gd : Option GapData) :
    SecondaryStep (checkGaps gd) := by
  intro s
  unfold checkGaps
  cases gd with
  | none => exact ⟨Or.inl rfl, [], by simp⟩
  | some x =>
    dsimp only
    split
    · exact ⟨escalate_classification s _, [_], escalate_reasons s _⟩
    · exact ⟨Or.inl rfl, [], by simp⟩

theorem checkOwnership_secondary (d : Details) :
    SecondaryStep (checkOwnership d) := by
  intro s
  unfold checkOwnership
  cases owner_country_of d.ownership with
  | none => exact ⟨Or.inl rfl, [], by simp⟩
  | some c =>
    dsimp only
    split
    · exact ⟨escalate_classification s _, [_], escalate_reasons s _⟩
    · exact ⟨Or.inl rfl, [], by simp⟩

theorem secondary_preserves_foreign {step : CState → CState} (h : SecondaryStep step)
    (s : CState) (hs : s.classification = "Foreign") :
    (step s).classification = "Foreign" := by
  rcases (h s).1 with h1 | h2
  · rw [h1, hs]
  · rw [hs] at h2
    exact absurd h2.1 (by decide)

/-- C2: (i) a known non-home flag forces the final label "Foreign" whatever
the secondary signals are; (ii) `escalate`, the shared body of every
secondary rule, appends EXACTLY the given reason, raises only "Genuine
Senegalese" to "Suspect", and at a state already labelled "Foreign" by a
flag mismatch keeps the label while still appending the reason; (iii) every
secondary rule obeys the escalation-only label discipline; (iv) each
secondary rule equals `escalate` with its own reason at EVERY state — in
particular at a "Foreign" state, so a triggered rule appends its reason also
after a flag mismatch — exactly when the code's trigger condition holds, and
leaves the state untouched otherwise. -/
theorem C2_escalation_only (d : Details) (fh : Option FlagHistoryData)
    (fd : Option FishingData) (pd : Option PortData) (gd : Option GapData) :
    (∀ f, d.flag = some f → f ≠ "" → f ≠ "SEN" →
      (classify_vessel d fh fd pd gd).classification = "Foreign") ∧
    (∀ (s : CState) (r : Reason),
      (escalate s r).reasons = s.reasons ++ [r] ∧
      ((escalate s r).classification = s.classification ∨
        (s.classification = "Genuine Senegalese" ∧
          (escalate s r).classification = "Suspect")) ∧
      (s.classification = "Foreign" →
        (escalate s r).classification = "Foreign" ∧
        (escalate s r).reasons = s.reasons ++ [r])) ∧
    (SecondaryStep (checkFlagHistory fh) ∧
      SecondaryStep (checkEnginePower d) ∧
      SecondaryStep (checkLength d) ∧
      SecondaryStep (checkFishing fd) ∧
      SecondaryStep (checkPorts pd) ∧
      SecondaryStep (checkGaps gd) ∧
      SecondaryStep (checkOwnership d)) ∧
    ((∀ (s : CState) (x : FlagHistoryData), fh = some x → x.previous_flags ≠ [] →
        checkFlagHistory fh s = escalate s (.previousFlags x.previous_flags)) ∧
      (∀ (s : CState) (x : FlagHistoryData), fh = some x → x.previous_flags = [] →
        checkFlagHistory fh s = s) ∧
      (fh = none → ∀ s, checkFlagHistory fh s = s)) ∧
    ((∀ (s : CState) (p : ℚ), d.engine_power = some p → p ≠ 0 →
        p > ENGINE_POWER_THRESHOLD →
        checkEnginePower d s = escalate s (.highEnginePower p)) ∧
      (∀ (s : CState) (p : ℚ), d.engine_power = some p →
        ¬(p ≠ 0 ∧ p > ENGINE_POWER_THRESHOLD) → checkEnginePower d s = s) ∧
      (d.engine_power = none → ∀ s, checkEnginePower d s = s)) ∧
    ((∀ (s : CState) (q : ℚ), d.length = some q → q ≠ 0 →
        q > VESSEL_LENGTH_THRESHOLD →
        checkLength d s = escalate s (.largeVesselLength q)) ∧
      (∀ (s : CState) (q : ℚ), d.length = some q →
        ¬(q ≠ 0 ∧ q > VESSEL_LENGTH_THRESHOLD) → checkLength d s = s) ∧
      (d.length = none → ∀ s, checkLength d s = s)) ∧
    ((∀ (s : CState) (x : FishingData), fd = some x →
        x.total_hours < FISHING_HOURS_THRESHOLD →
        checkFishing fd s = escalate s (.lowFishingActivity x.total_hours)) ∧
      (∀ (s : CState) (x : FishingData), fd = some x →
        ¬ x.total_hours < FISHING_HOURS_THRESHOLD → checkFishing fd s = s) ∧
      (fd = none → ∀ s, checkFishing fd s = s)) ∧
    ((∀ (s : CState) (x : PortData), pd = some x →
        x.foreign_visit_pct > FOREIGN_PORT_VISIT_THRESHOLD →
        checkPorts pd s = escalate s (.foreignPortVisits x.foreign_visit_pct)) ∧
      (∀ (s : CState) (x : PortData), pd = some x →
        ¬ x.foreign_visit_pct > FOREIGN_PORT_VISIT_THRESHOLD → checkPorts pd s = s) ∧
      (pd = none → ∀ s, checkPorts pd s = s)) ∧
    ((∀ (s : CState) (x : GapData), gd = some x → x.suspicious_gaps > 0 →
        checkGaps gd s = escalate s (.suspiciousAisGaps x.suspicious_gaps)) ∧
      (∀ (s : CState) (x : GapData), gd = some x → ¬ x.suspicious_gaps > 0 →
        checkGaps gd s = s) ∧
      (gd = none → ∀ s, checkGaps gd s = s)) ∧
    ((∀ (s : CState) (c : String), owner_country_of d.ownership = some c →
        c ≠ "" → c ≠ "SEN" →
        checkOwnership d s = escalate s (.foreignOwnership c)) ∧
      (∀ (s : CState) (c : String), owner_country_of d.ownership = some c →
        ¬(c ≠ "" ∧ c ≠ "SEN") → checkOwnership d s = s) ∧
      (owner_country_of d.ownership = none → ∀ s, checkOwnership d s = s)) := by
  refine ⟨?_, ?_,
    ⟨checkFlagHistory_secondary fh, checkEnginePower_secondary d,
      checkLength_secondary d, checkFishing_secondary fd, checkPorts_secondary pd,
      checkGaps_secondary gd, checkOwnership_secondary d⟩,
    ⟨?_, ?_, ?_⟩, ⟨?_, ?_, ?_⟩, ⟨?_, ?_, ?_⟩, ⟨?_, ?_, ?_⟩, ⟨?_, ?_, ?_⟩,
    ⟨?_, ?_, ?_⟩, ⟨?_, ?_, ?_⟩⟩
  · intro f hf hne hsen
    have h1 : (checkFlag d initState).classification = "Foreign" := by
      unfold checkFlag
      rw [hf]
      simp [hne, hsen]
    unfold classify_vessel
    exact secondary_preserves_foreign (checkOwnership_secondary d) _
      (secondary_preserves_foreign (checkGaps_secondary gd) _
        (secondary_preserves_foreign (checkPorts_secondary pd) _
          (secondary_preserves_foreign (checkFishing_secondary fd) _
            (secondary_preserves_foreign (checkLength_secondary d) _
              (secondary_preserves_foreign (checkEnginePower_secondary d) _
                (secondary_preserves_foreign (checkFlagHistory_secondary fh) _ h1))))))
  · intro s r
    refine ⟨rfl, escalate_classification s r, ?_⟩
    intro hs
    refine ⟨?_, rfl⟩
    show (if s.classification = "Genuine Senegalese" then "Suspect"
      else s.classification) = "Foreign"
    rw [hs, if_neg (by decide)]
  · intro s x hx hne
    subst hx
    simp [checkFlagHistory, hne]
  · intro s x hx he
    subst hx
    simp [checkFlagHistory, he]
  · intro hn s
    subst hn
    rfl
  · intro s p hp hp0 hpT
    unfold checkEnginePower
    rw [hp]
    dsimp only
    rw [if_pos ⟨hp0, hpT⟩]
  · intro s p hp hnot
    unfold checkEnginePower
    rw [hp]
    dsimp only
    rw [if_neg hnot]
  · intro hn s
    unfold checkEnginePower
    rw [hn]
  · intro s q hq hq0 hqT
    unfold checkLength
    rw [hq]
    dsimp only
    rw [if_pos ⟨hq0, hqT⟩]
  · intro s q hq hnot
    unfold checkLength
    rw [hq]
    dsimp only
    rw [if_neg hnot]
  · intro hn s
    unfold checkLength
    rw [hn]
  · intro s x hx hlt
    subst hx
    simp [checkFishing, hlt]
  · intro s x hx hnot
    subst hx
    simp [checkFishing, hnot]
  · intro hn s
    subst hn
    rfl
  · intro s x hx hgt
    subst hx
    simp [checkPorts, hgt]
  · intro s x hx hnot
    subst hx
    simp [checkPorts, hnot]
  · intro hn s
    subst hn
    rfl
  · intro s x hx hgt
    subst hx
    simp [checkGaps, hgt]
  · intro s x hx hnot
    subst hx
    simp [checkGaps, hnot]
  · intro hn s
    subst hn
    rfl
  · intro s c hc hc1 hc2
    unfold checkOwnership
    rw [hc]
    dsimp only
    rw [if_pos ⟨hc1, hc2⟩]
  · intro s c hc hnot
    unfold checkOwnership
    rw [hc]
    dsimp only
    rw [if_neg hnot]
  · intro hn s
    unfold checkOwnership
    rw [hn]

/-- A details record with a known foreign flag, for the C2 witness. -/
def foreignDetails : Details :=
  { defaultDetails with flag := some "CHN" }

/-- Witness for C2: a concrete foreign-flagged vessel is classified
"Foreign", and a triggered secondary rule (fishing hours 0 < 200) applied at
that "Foreign" state still appends its reason after the flag mismatch. -/
theorem C2_witness :
    foreignDetails.flag = some "CHN" ∧ ("CHN" : String) ≠ "" ∧ ("CHN" : String) ≠ "SEN" ∧
    (classify_vessel foreignDetails none (some ⟨0, 0, 0⟩) none none).classification =
      "Foreign" ∧
    checkFishing (some ⟨0, 0, 0⟩) ⟨"Foreign", [Reason.nonSenegaleseFlag "CHN"]⟩ =
      ⟨"Foreign", [Reason.nonSenegaleseFlag "CHN", Reason.lowFishingActivity 0]⟩ := by
  have h := C2_escalation_only foreignDetails none (some ⟨0, 0, 0⟩) none none
  refine ⟨rfl, by decide, by decide, h.1 "CHN" rfl (by decide) (by decide), ?_⟩
  have hfire := h.2.2.2.2.2.2.1.1 ⟨"Foreign", [Reason.nonSenegaleseFlag "CHN"]⟩
    ⟨0, 0, 0⟩ rfl (by norm_num [FISHING_HOURS_THRESHOLD])
  rw [hfire]
  rfl

/-! ## Per-vessel pipeline — `comprehensive_vessel_analysis` (lines 504-655)

The network is injected: the two search responses and the event lists the
paginated fetches would return are parameters. The "Reasons" column joins the
reason list with "; " (or the constant "No suspicious indicators" when
empty); this rendering is abstracted, the result keeps the reason list. The
early no-data return (lines 514-534) omits the trailing five dictionary keys;
they are modelled as `none`. -/

/-- A result row of the analysis. -/
structure AnalysisResult where
  imo : Option String
  vessel_name : Option String
  ssid : Option String
  flag : Option String
  classification : String
  reasons : List Reason
  fishing_hours : Option ℚ
  vessel_length : Option ℚ
  engine_power : Option ℚ
  gross_tonnage : Option ℚ
  port_visits : Option Nat
  foreign_port_pct : Option ℚ
  ais_gaps : Option Nat
  suspicious_gaps : Option Nat
  encounters : Option Nat
  flag_changes : Option Nat
  previous_flags : Option String
  owner_country : Option String
  ownership : Option String
  gear_type : Option String
  ship_type : Option String
  countries_visited : Option String
  encounter_flags : Option String
deriving DecidableEq

/-- The early return when no vessel data was found (lines 514-534):
classification "Unknown", the single reason "No vessel data found in GFW
database", every signal column `None`. -/
def noDataResult (imo name : Option String) : AnalysisResult :=
  { imo := imo, vessel_name := name, ssid := none, flag := none,
    classification := "Unknown", reasons := [.noVesselData],
    fishing_hours := none, vessel_length := none, engine_power := none,
    gross_tonnage := none, port_visits := none, foreign_port_pct := none,
    ais_gaps := none, suspicious_gaps := none, encounters := none,
    flag_changes := none, previous_flags := none, owner_country := none,
    ownership := none, gear_type := none, ship_type := none,
    countries_visited := none, encounter_flags := none }

/-- `comprehensive_vessel_analysis` (lines 504-655): resolve, early-return on
no data, extract details, analyze the fetched event lists when an ssid is
available, classify, and assemble the result row. -/
def comprehensive_vessel_analysis (imo name : Option String)
    (imoResp nameResp : Option SearchData)
    (fishing_events : List FEvent) (port_visits : List Visit)
    (ais_gaps : List FEvent) (encounters : List Encounter)
    (flag_history : List FlagEntry) : AnalysisResult :=
  let looked := lookup_vessel_by_identifiers imo name none imoResp nameResp none
  match looked.1 with
  | none => noDataResult imo name
  | some vd =>
    let ssid := (some vd).bind Entry.id
    let details := extract_vessel_details (some vd)
    let fishing_data :=
      if truthyStr ssid then some (analyze_fishing_activity fishing_events) else none
    let port_data :=
      if truthyStr ssid then some (analyze_port_visits port_visits) else none
    let gap_data :=
      if truthyStr ssid then some (analyze_ais_gaps ais_gaps) else none
    let encounter_data :=
      if truthyStr ssid then some (analyze_encounters encounters) else none
    let flag_history_data :=
      if truthyStr ssid then some (analyze_flag_history flag_history) else none
    let cstate := classify_vessel details flag_history_data fishing_data port_data gap_data
    { imo := imo,
      vessel_name := if details.name ≠ "Unknown" then some details.name else name,
      ssid := ssid,
      flag := details.flag,
      classification := cstate.classification,
      reasons := cstate.reasons,
      fishing_hours := fishing_data.map FishingData.total_hours,
      vessel_length := details.length,
      engine_power := details.engine_power,
      gross_tonnage := details.tonnage,
      port_visits := port_data.map PortData.total_visits,
      foreign_port_pct := port_data.map PortData.foreign_visit_pct,
      ais_gaps := gap_data.map GapData.total_gaps,
      suspicious_gaps := gap_data.map GapData.suspicious_gaps,
      encounters := encounter_data.map EncounterData.total_encounters,
      flag_changes := flag_history_data.map FlagHistoryData.flag_changes,
      previous_flags :=
        match flag_history_data with
        | some x =>
          if x.previous_flags ≠ [] then some (String.intercalate ", " x.previous_flags)
          else none
        | none => none,
      owner_country := owner_country_of details.ownership,
      ownership := details.ownership,
      gear_type := details.gear_type,
      ship_type := details.ship_type,
      countries_visited :=
        match port_data with
        | some x =>
          if x.countries_visited ≠ [] then
            some (String.intercalate ", " x.countries_visited)
          else none
        | none => none,
      encounter_flags :=
        match encounter_data with
        | some x =>
          if x.encounter_vessel_flags ≠ [] then
            some (String.intercalate ", " x.encounter_vessel_flags)
          else none
        | none => none }

/-- C5: when every resolution strategy finds nothing, the pipeline returns
the no-data row — label "Unknown" (the Unresolved outcome), exactly one
no-match reason, zero secondary (scored) reasons — independently of every
signal input (no signal is consulted, no classification rule applied), and
distinct from the "Error" label. -/
theorem C5_not_found_unresolved (imo name : Option String)
    (imoResp nameResp : Option SearchData)
    (fishing_events : List FEvent) (port_visits : List Visit)
    (ais_gaps : List FEvent) (encounters : List Encounter)
    (flag_history : List FlagEntry)
    (h : (lookup_vessel_by_identifiers imo name none imoResp nameResp none).1 = none) :
    comprehensive_vessel_analysis imo name imoResp nameResp fishing_events
        port_visits ais_gaps encounters flag_history = noDataResult imo name ∧
    (noDataResult imo name).classification = "Unknown" ∧
    (noDataResult imo name).reasons = [Reason.noVesselData] ∧
    ((noDataResult imo name).reasons.filter Reason.isSecondary).length = 0 ∧
    (noDataResult imo name).classification ≠ "Error" := by
  refine ⟨?_, rfl, rfl, rfl, ?_⟩
  · simp only [comprehensive_vessel_analysis, h]
  · rw [show (noDataResult imo name).classification = "Unknown" from rfl]
    decide

/-- Witness for C5: both queries return empty candidate lists. -/
theorem C5_witness :
    (lookup_vessel_by_identifiers (some "999") (some "NONAME") none
        (some ⟨[]⟩) (some ⟨[]⟩) none).1 = none ∧
    comprehensive_vessel_analysis (some "999") (some "NONAME")
        (some ⟨[]⟩) (some ⟨[]⟩) [] [] [] [] [] =
      noDataResult (some "999") (some "NONAME") :=
  ⟨rfl, (C5_not_found_unresolved (some "999") (some "NONAME")
    (some ⟨[]⟩) (some ⟨[]⟩) [] [] [] [] [] rfl).1⟩

theorem roundHalfEven_zero : roundHalfEven 0 = 0 := by
  unfold roundHalfEven
  norm_num

theorem pyRound2_zero : pyRound2 0 = 0 := by
  unfold pyRound2
  rw [show (0 : ℚ) * 100 = 0 by ring, roundHalfEven_zero]
  norm_num

/-- C7: the port-visit extractor divides only under a positive total — the
bundled fraction is the guarded expression, and an empty input yields the
all-zero bundle — and the activity extractor's mean duration is 0 whenever
the event count is 0, so empty inputs yield zero bundles, never an error. -/
theorem C7_no_division_by_zero (visits : List Visit) (events : List FEvent) :
    analyze_port_visits [] = ⟨0, 0, 0, [], none⟩ ∧
    analyze_fishing_activity [] = ⟨0, 0, 0⟩ ∧
    (analyze_port_visits visits).foreign_visit_pct =
      (if 0 < visits.length then
        pyRound2 (((analyze_port_visits visits).foreign_visits : ℚ) / (visits.length : ℚ))
      else 0) ∧
    ((analyze_fishing_activity events).events_count = 0 →
      (analyze_fishing_activity events).avg_duration_hours = 0) ∧
    pyRound2 0 = 0 := by
  refine ⟨rfl, rfl, ?_, ?_, pyRound2_zero⟩
  · by_cases hv : visits = []
    · subst hv
      simp [analyze_port_visits]
    · have hlen : 0 < visits.length := List.length_pos.2 hv
      simp [analyze_port_visits, hv, hlen]
  · intro h
    by_cases he : events = []
    · subst he; rfl
    · exfalso
      simp [analyze_fishing_activity, he] at h

/-- Witness for C7 at the empty inputs. -/
theorem C7_witness :
    (analyze_fishing_activity ([] : List FEvent)).events_count = 0 ∧
    (analyze_fishing_activity ([] : List FEvent)).avg_duration_hours = 0 :=
  ⟨rfl, (C7_no_division_by_zero [] []).2.2.2.1 rfl⟩

/-- The unrounded foreign-visit fraction computed inside
`analyze_port_visits` before the `round(..., 2)` presentation step. -/
def foreignFrac (l : List Visit) : ℚ :=
  if l = [] then 0
  else ((l.length - (l.filterMap visitFlag).count "SEN" : ℕ) : ℚ) / (l.length : ℚ)

theorem foreignFrac_eq (l : List Visit) (hl : l ≠ []) :
    foreignFrac l =
      ((l.length - (l.filterMap visitFlag).count "SEN" : ℕ) : ℚ) / (l.length : ℚ) := by
  simp [foreignFrac, hl]

theorem analyze_port_visits_foreign (l : List Visit) :
    (analyze_port_visits l).foreign_visits =
      l.length - (l.filterMap visitFlag).count "SEN" ∧
    (analyze_port_visits l).foreign_visit_pct = pyRound2 (foreignFrac l) := by
  by_cases hl : l = []
  · subst hl
    refine ⟨rfl, ?_⟩
    show (0 : ℚ) = pyRound2 (foreignFrac [])
    rw [show foreignFrac [] = 0 from rfl, pyRound2_zero]
  · have hlen : 0 < l.length := List.length_pos.2 hl
    constructor
    · simp [analyze_port_visits, hl]
    · simp [analyze_port_visits, hl, hlen, foreignFrac]

theorem frac_le_frac_succ (F n : ℕ) (h : F ≤ n) :
    (F : ℚ) / n ≤ ((F : ℚ) + 1) / ((n : ℚ) + 1) := by
  rcases Nat.eq_zero_or_pos n with hn | hn
  · have hF : F = 0 := Nat.le_zero.1 (hn ▸ h)
    subst hn; subst hF
    norm_num
  · have hn' : (0 : ℚ) < n := by exact_mod_cast hn
    have h' : (F : ℚ) ≤ n := by exact_mod_cast h
    rw [div_le_div_iff hn' (by positivity)]
    nlinarith

theorem frac_lt_frac_succ (F n : ℕ) (h : F < n) :
    (F : ℚ) / n < ((F : ℚ) + 1) / ((n : ℚ) + 1) := by
  have hn : 0 < n := lt_of_le_of_lt (Nat.zero_le F) h
  have hn' : (0 : ℚ) < n := by exact_mod_cast hn
  have h' : (F : ℚ) < n := by exact_mod_cast h
  rw [div_lt_div_iff hn' (by positivity)]
  nlinarith

/-- C10 amended: in `analyze_port_visits`, foreign visits are the total count
minus the count of "SEN"-anchorage visits, so a visit record without an
anchorage country code is counted as foreign: appending one increments the
foreign count by one and never lowers the foreign fraction, raising it
strictly whenever the fraction was below 1 (it stays 1 when every other
visit was already foreign, which is the one case where the claim's
"increases" fails). -/
theorem C10_missing_anchorage_foreign (l : List Visit) (v : Visit)
    (hv : visitFlag v = none) :
    (analyze_port_visits (l ++ [v])).foreign_visits =
      (analyze_port_visits l).foreign_visits + 1 ∧
    (analyze_port_visits l).foreign_visits =
      l.length - (l.filterMap visitFlag).count "SEN" ∧
    (analyze_port_visits l).foreign_visit_pct = pyRound2 (foreignFrac l) ∧
    foreignFrac l ≤ foreignFrac (l ++ [v]) ∧
    (foreignFrac l < 1 → foreignFrac l < foreignFrac (l ++ [v])) := by
  have hflt : (l ++ [v]).filterMap visitFlag = l.filterMap visitFlag := by
    rw [List.filterMap_append]
    simp [hv]
  have hc : (l.filterMap visitFlag).count "SEN" ≤ l.length :=
    le_trans (List.count_le_length _ _) (List.length_filterMap_le _ _)
  obtain ⟨hf1, hp1⟩ := analyze_port_visits_foreign l
  obtain ⟨hf2, _⟩ := analyze_port_visits_foreign (l ++ [v])
  have hlen2 : (l ++ [v]).length = l.length + 1 := by simp
  have hne2 : l ++ [v] ≠ [] := by simp
  refine ⟨?_, hf1, hp1, ?_, ?_⟩
  · rw [hf1, hf2, hflt, hlen2]
    omega
  · by_cases hl : l = []
    · subst hl
      have h2 : foreignFrac ([] ++ [v]) = 1 := by
        rw [List.nil_append, foreignFrac_eq [v] (by simp)]
        simp [List.filterMap, hv]
      rw [h2, show foreignFrac [] = 0 from rfl]
      norm_num
    · rw [foreignFrac_eq l hl, foreignFrac_eq (l ++ [v]) hne2, hflt, hlen2]
      have hF1 : (l.length + 1 - (l.filterMap visitFlag).count "SEN" : ℕ) =
          (l.length - (l.filterMap visitFlag).count "SEN") + 1 := by omega
      rw [hF1]
      push_cast
      exact frac_le_frac_succ _ _ (Nat.sub_le _ _)
  · intro hlt
    by_cases hl : l = []
    · subst hl
      have h2 : foreignFrac ([] ++ [v]) = 1 := by
        rw [List.nil_append, foreignFrac_eq [v] (by simp)]
        simp [List.filterMap, hv]
      rw [h2, show foreignFrac [] = 0 from rfl]
      norm_num
    · have hlen : 0 < l.length := List.length_pos.2 hl
      have hlenq : (0 : ℚ) < l.length := by exact_mod_cast hlen
      rw [foreignFrac_eq l hl] at hlt ⊢
      rw [foreignFrac_eq (l ++ [v]) hne2, hflt, hlen2]
      have hFn : (l.length - (l.filterMap visitFlag).count "SEN" : ℕ) < l.length := by
        by_contra hge
        push_neg at hge
        have heq : (l.length - (l.filterMap visitFlag).count "SEN" : ℕ) = l.length := by
          omega
        rw [heq, div_self (ne_of_gt hlenq)] at hlt
        exact lt_irrefl 1 hlt
      have hF1 : (l.length + 1 - (l.filterMap visitFlag).count "SEN" : ℕ) =
          (l.length - (l.filterMap visitFlag).count "SEN") + 1 := by omega
      rw [hF1]
      push_cast
      exact frac_lt_frac_succ _ _ hFn

/-- Witness for C10 amended at a concrete visit list. -/
theorem C10_witness :
    visitFlag ⟨none⟩ = none ∧
    (analyze_port_visits ([⟨some ⟨some "SEN"⟩⟩] ++ [⟨none⟩])).foreign_visits =
      (analyze_port_visits [⟨some ⟨some "SEN"⟩⟩]).foreign_visits + 1 :=
  ⟨rfl, (C10_missing_anchorage_foreign [⟨some ⟨some "SEN"⟩⟩] ⟨none⟩ rfl).1⟩

/-- A visit with a foreign ("FRA") anchorage flag and one without anchorage
data, for the C10 counterexample. -/
def vFRA : Visit := ⟨some ⟨some "FRA"⟩⟩
def vNoAnchor : Visit := ⟨none⟩

/-- C10 counterexample: appending a no-anchorage record to a visit list whose
only visit is already foreign leaves the foreign fraction at 1 — the record
is counted as foreign, but the fraction does not increase. -/
theorem C10_counterexample :
    visitFlag vNoAnchor = none ∧
    foreignFrac [vFRA] = 1 ∧
    foreignFrac ([vFRA] ++ [vNoAnchor]) = 1 ∧
    ¬ foreignFrac [vFRA] < foreignFrac ([vFRA] ++ [vNoAnchor]) ∧
    (analyze_port_visits ([vFRA] ++ [vNoAnchor])).foreign_visit_pct =
      (analyze_port_visits [vFRA]).foreign_visit_pct := by
  have hcount : List.count "SEN" ["FRA"] = 0 := by decide
  have h1 : foreignFrac [vFRA] = 1 := by
    rw [foreignFrac_eq [vFRA] (by simp)]
    norm_num [List.filterMap, visitFlag, vFRA, hcount]
  have h2 : foreignFrac ([vFRA] ++ [vNoAnchor]) = 1 := by
    rw [foreignFrac_eq ([vFRA] ++ [vNoAnchor]) (by simp)]
    norm_num [List.filterMap, visitFlag, vFRA, vNoAnchor, hcount]
  have hp1 := (analyze_port_visits_foreign [vFRA]).2
  have hp2 := (analyze_port_visits_foreign ([vFRA] ++ [vNoAnchor])).2
  refine ⟨rfl, h1, h2, ?_, ?_⟩
  · rw [h1, h2]
    exact lt_irrefl 1
  · rw [hp1, hp2, h1, h2]

/-! ## Paginators

`fetch_fishing_events` of "scripts/comprehensive_vessel_analysis.py"
(lines 226-254) and of "retired scripts/intergrated_analysis.py"
(lines 104-132). The upstream is injected as the sequence of responses per
request (`resp n` answers the n-th request; `none` models a request on which
the retry wrapper gave up / a non-200 response), which covers arbitrary —
also stateful — upstream behaviour. The loop is made total with a fuel
parameter: a `none` result means the fuel ran out with the loop still
running; a `some (events, k)` result means the loop terminated after issuing
`k` requests, returning `events`. The `offset` request parameter is threaded
as in the code. -/

/-- One page of an events response: the `entries` list and the optional
`nextOffset` continuation indicator. -/
structure Page where
  entries : List FEvent
  nextOffset : Option Int
deriving DecidableEq

/-- The pagination loop of the current `fetch_fishing_events` (lines 238-253):
stop on a failed request, an empty page, a missing `nextOffset`, or a page
shorter than the requested `limit`; otherwise continue from `nextOffset`. -/
def fetchEventsLoop (resp : Nat → Option Page) (limit : Nat) :
    Nat → Nat → Int → List FEvent → Option (List FEvent × Nat)
  | 0, _, _, _ => none
  | fuel + 1, req, _offset, acc =>
    match resp req with
    | none => some (acc, req + 1)
    | some page =>
      if page.entries = [] then some (acc, req + 1)
      else
        match page.nextOffset with
        | none => some (acc ++ page.entries, req + 1)
        | some next =>
          if page.entries.length < limit then some (acc ++ page.entries, req + 1)
          else fetchEventsLoop resp limit fuel (req + 1) next (acc ++ page.entries)

/-- `fetch_fishing_events` with `limit = 100`, starting at offset 0. -/
def fetch_fishing_events (resp : Nat → Option Page) (fuel : Nat) :
    Option (List FEvent × Nat) :=
  fetchEventsLoop resp 100 fuel 0 0 []

/-- A degenerate response for the current paginator: failed request, empty
page, missing continuation indicator, or short page. -/
def degenerate (limit : Nat) : Option Page → Prop
  | none => True
  | some p => p.entries = [] ∨ p.nextOffset = none ∨ p.entries.length < limit

instance (limit : Nat) (r : Option Page) : Decidable (degenerate limit r) := by
  cases r with
  | none => exact isTrue trivial
  | some p => exact inferInstanceAs (Decidable (_ ∨ _ ∨ _))

/-- The current paginator terminates within `n + 1` requests as soon as the
`n`-th upcoming response is degenerate. -/
theorem fetchEventsLoop_terminates (resp : Nat → Option Page) (limit : Nat) :
    ∀ (n req : Nat) (offset : Int) (acc : List FEvent),
      degenerate limit (resp (req + n)) →
      (fetchEventsLoop resp limit (n + 1) req offset acc).isSome = true := by
  intro n
  induction n with
  | zero =>
    intro req offset acc hdeg
    unfold fetchEventsLoop
    cases hr : resp req with
    | none => simp
    | some p =>
      rw [Nat.add_zero, hr] at hdeg
      by_cases h1 : p.entries = []
      · simp [h1]
      · rcases hdeg with h | h | h
        · exact absurd h h1
        · simp [h1, h]
        · cases hn : p.nextOffset with
          | none => simp [h1, hn]
          | some next => simp [h1, hn, h]
  | succ n ih =>
    intro req offset acc hdeg
    unfold fetchEventsLoop
    cases hr : resp req with
    | none => simp
    | some p =>
      by_cases h1 : p.entries = []
      · simp [h1]
      · cases hn : p.nextOffset with
        | none => simp [h1, hn]
        | some next =>
          by_cases h2 : p.entries.length < limit
          · simp [h1, hn, h2]
          · simp only [h1, hn, h2, if_neg, if_false]
            have hdeg' : degenerate limit (resp ((req + 1) + n)) := by
              have : (req + 1) + n = req + (n + 1) := by omega
              rw [this]
              exact hdeg
            exact ih (req + 1) next (acc ++ p.entries) hdeg'

/-- The scenario lemma: a first page of exactly the page size with no
continuation indicator terminates the loop after that single request,
whatever the remaining fuel. -/
theorem fetchEventsLoop_one_page (resp : Nat → Option Page) (limit fuel : Nat)
    (es : List FEvent) (h0 : resp 0 = some ⟨es, none⟩) (hne : es ≠ [])
    (hlen : es.length = limit) (hfuel : 0 < fuel) :
    fetchEventsLoop resp limit fuel 0 0 [] = some (es, 1) := by
  cases fuel with
  | zero => exact absurd hfuel (by omega)
  | succ f =>
    unfold fetchEventsLoop
    rw [h0]
    simp [hne]

/-- The pagination loop of the retired `fetch_fishing_events` (lines 118-131):
the offset advances by `len(events)`, and the loop breaks on a non-200
response, an empty page, or when `"nextOffset" not in data or
len(events) == 0` — whose second disjunct is unreachable, an empty page
having broken out earlier. A short page with a continuation indicator does
NOT stop this loop. -/
def retiredFetchLoop (resp : Nat → Option Page) :
    Nat → Nat → Int → List FEvent → Option (List FEvent × Nat)
  | 0, _, _, _ => none
  | fuel + 1, req, offset, acc =>
    match resp req with
    | none => some (acc, req + 1)
    | some page =>
      if page.entries = [] then some (acc, req + 1)
      else
        if page.nextOffset = none ∨ page.entries.length = 0 then
          some (acc ++ page.entries, req + 1)
        else
          retiredFetchLoop resp fuel (req + 1) (offset + page.entries.length)
            (acc ++ page.entries)

/-- A response on which the retired loop stops: failed request, empty page,
or missing continuation indicator (short pages do not stop it). -/
def retiredDegenerate : Option Page → Prop
  | none => True
  | some p => p.entries = [] ∨ p.nextOffset = none

/-- An upstream that always answers with the same short page (1 entry against
the page size of 100) carrying a continuation indicator. -/
def shortPageResp : Nat → Option Page := fun _ =>
  some ⟨[⟨TsField.ok 0, TsField.ok 3600⟩], some 0⟩

/-- The retired paginator runs out of any fuel on `shortPageResp`: it never
terminates on this upstream although every response is a short page. -/
def retiredDiverges : Prop :=
  ∀ (fuel req : Nat) (offset : Int) (acc : List FEvent),
    retiredFetchLoop shortPageResp fuel req offset acc = none

theorem retiredDiverges_holds : retiredDiverges := by
  intro fuel
  induction fuel with
  | zero => intro req offset acc; rfl
  | succ f ih =>
    intro req offset acc
    unfold retiredFetchLoop
    simp only [shortPageResp]
    rw [if_neg (by decide), if_neg (by decide)]
    exact ih (req + 1) (offset + 1) (acc ++ [⟨TsField.ok 0, TsField.ok 3600⟩])

/-- C6 counterexample: `shortPageResp` answers every request — in particular
the first — with a page shorter than the requested page size of 100, yet the
retired paginator (one of the two paginators the claim covers) never
terminates on it: the short-page disjunct of the claim fails for the retired
code. -/
theorem C6_counterexample :
    degenerate 100 (shortPageResp 0) ∧
    (shortPageResp 0).isSome = true ∧
    retiredDiverges :=
  ⟨by decide, rfl, retiredDiverges_holds⟩

/-- The retired paginator terminates within `n + 1` requests as soon as the
`n`-th upcoming response is a failed request, an empty page, or a page
without a continuation indicator. -/
theorem retiredFetchLoop_terminates (resp : Nat → Option Page) :
    ∀ (n req : Nat) (offset : Int) (acc : List FEvent),
      retiredDegenerate (resp (req + n)) →
      (retiredFetchLoop resp (n + 1) req offset acc).isSome = true := by
  intro n
  induction n with
  | zero =>
    intro req offset acc hdeg
    unfold retiredFetchLoop
    cases hr : resp req with
    | none => simp
    | some p =>
      rw [Nat.add_zero, hr] at hdeg
      by_cases h1 : p.entries = []
      · simp [h1]
      · rcases hdeg with h | h
        · exact absurd h h1
        · simp [h1, h]
  | succ n ih =>
    intro req offset acc hdeg
    unfold retiredFetchLoop
    cases hr : resp req with
    | none => simp
    | some p =>
      by_cases h1 : p.entries = []
      · simp [h1]
      · by_cases h2 : p.nextOffset = none ∨ p.entries.length = 0
        · have hn : p.nextOffset = none := by
            rcases h2 with h | h
            · exact h
            · exact absurd (List.length_eq_zero.1 h) h1
          simp [h1, hn]
        · simp only [h1, h2, if_neg, if_false]
          have hdeg' : retiredDegenerate (resp ((req + 1) + n)) := by
            have : (req + 1) + n = req + (n + 1) := by omega
            rw [this]
            exact hdeg
          exact ih (req + 1) (offset + p.entries.length) (acc ++ p.entries) hdeg'

/-- C6 amended: the current paginator terminates as soon as some response is
degenerate (failed, empty, continuation-free, or short), and a first page of
exactly the page size without a continuation indicator stops it after that
one request; the retired paginator terminates on failed, empty or
continuation-free responses, but a short page carrying a continuation
indicator does not stop it (see the counterexample). -/
theorem C6_amended (resp : Nat → Option Page) (limit n fuel : Nat) (es : List FEvent) :
    (degenerate limit (resp n) →
      (fetchEventsLoop resp limit (n + 1) 0 0 []).isSome = true) ∧
    (resp 0 = some ⟨es, none⟩ → es ≠ [] → es.length = limit → 0 < fuel →
      fetchEventsLoop resp limit fuel 0 0 [] = some (es, 1)) ∧
    (retiredDegenerate (resp n) →
      (retiredFetchLoop resp (n + 1) 0 0 []).isSome = true) := by
  refine ⟨?_, ?_, ?_⟩
  · intro hdeg
    exact fetchEventsLoop_terminates resp limit n 0 0 [] (by rw [Nat.zero_add]; exact hdeg)
  · intro h0 hne hlen hfuel
    exact fetchEventsLoop_one_page resp limit fuel es h0 hne hlen hfuel
  · intro hdeg
    exact retiredFetchLoop_terminates resp n 0 0 [] (by rw [Nat.zero_add]; exact hdeg)

/-- A full page of 100 events, for the C6 witness. -/
def fullPage : List FEvent := List.replicate 100 ⟨TsField.ok 0, TsField.ok 3600⟩

/-- Witness for C6 amended: a first page of exactly the page size and no
continuation indicator stops the current paginator after one request. -/
theorem C6_amended_witness :
    ((fun _ : Nat => some (⟨fullPage, none⟩ : Page)) 0 = some ⟨fullPage, none⟩) ∧
    fullPage ≠ [] ∧ fullPage.length = 100 ∧ 0 < 5 ∧
    fetchEventsLoop (fun _ => some ⟨fullPage, none⟩) 100 5 0 0 [] = some (fullPage, 1) :=
  ⟨rfl, by decide, by decide, by decide,
    (C6_amended (fun _ => some ⟨fullPage, none⟩) 100 0 5 fullPage).2.1 rfl
      (by decide) (by decide) (by decide)⟩

/-! ## Batch driver — `main` of "scripts/comprehensive_vessel_analysis.py"
(lines 672-716)

One future is submitted per input row; completed futures are collected in
completion order (`as_completed`), modelled as an arbitrary permutation of
the rows. A future that raised is turned into an "Error" record built from
the original row, and the loop continues; a per-identity analysis that may
raise is modelled as `Row → Except String AnalysisResult`. -/

/-- An input row: the "IMO" and "Vessel Name" cells. -/
structure Row where
  imo : Option String
  vessel_name : Option String
deriving DecidableEq

/-- The error record appended when a future raised (lines 693-712):
classification "Error", the reason `f"Processing error: {str(e)}"` (the tag
carries `e`), every signal column `None`. -/
def errorResult (row : Row) (e : String) : AnalysisResult :=
  { imo := row.imo, vessel_name := row.vessel_name, ssid := none, flag := none,
    classification := "Error", reasons := [.processingError e],
    fishing_hours := none, vessel_length := none, engine_power := none,
    gross_tonnage := none, port_visits := none, foreign_port_pct := none,
    ais_gaps := none, suspicious_gaps := none, encounters := none,
    flag_changes := none, previous_flags := none, owner_country := none,
    ownership := none, gear_type := none, ship_type := none,
    countries_visited := none, encounter_flags := none }

/-- The per-future handling (lines 680-712): a successful future contributes
its result, a raised exception contributes the error record. -/
def handleFuture (analyze : Row → Except String AnalysisResult) (row : Row) :
    AnalysisResult :=
  match analyze row with
  | .ok r => r
  | .error e => errorResult row e

/-- The collection loop over completed futures. -/
def process_batch (analyze : Row → Except String AnalysisResult)
    (completionOrder : List Row) : List AnalysisResult :=
  completionOrder.map (handleFuture analyze)

/-- C9: the batch keeps a 1:1 input-output contract — for any completion
order (a permutation of the input rows) there is exactly one result per row,
the output being a permutation of the per-row results; a row whose analysis
fails entirely yields the "Error" record carrying the failure in its reasons,
and every other row still yields its own result. -/
theorem C9_batch_one_to_one (analyze : Row → Except String AnalysisResult)
    (rows order : List Row) (hperm : order.Perm rows) :
    (process_batch analyze order).length = rows.length ∧
    (process_batch analyze order).Perm (rows.map (handleFuture analyze)) ∧
    (∀ row e, analyze row = .error e →
      (handleFuture analyze row).classification = "Error" ∧
      (handleFuture analyze row).reasons = [Reason.processingError e]) ∧
    (∀ row r, analyze row = .ok r → handleFuture analyze row = r) := by
  refine ⟨?_, hperm.map (handleFuture analyze), ?_, ?_⟩
  · rw [process_batch, List.length_map]
    exact hperm.length_eq
  · intro row e he
    unfold handleFuture
    rw [he]
    exact ⟨rfl, rfl⟩
  · intro row r hr
    unfold handleFuture
    rw [hr]

/-- A concrete two-row batch for the C9 witness: the first row succeeds, the
second raises. -/
def rowA : Row := ⟨some "111", some "A"⟩
def rowB : Row := ⟨some "222", some "B"⟩

def toyAnalyze : Row → Except String AnalysisResult := fun row =>
  if row = rowB then .error "boom" else .ok (noDataResult row.imo row.vessel_name)

/-- Witness for C9 on the two-row batch, completion order reversed. -/
theorem C9_witness :
    ([rowB, rowA].Perm [rowA, rowB]) ∧
    (process_batch toyAnalyze [rowB, rowA]).length = [rowA, rowB].length ∧
    toyAnalyze rowB = .error "boom" ∧
    (handleFuture toyAnalyze rowB).classification = "Error" := by
  have hperm : [rowB, rowA].Perm [rowA, rowB] := List.Perm.swap rowA rowB []
  have h := C9_batch_one_to_one toyAnalyze [rowA, rowB] [rowB, rowA] hperm
  exact ⟨hperm, h.1, rfl, (h.2.2.1 rowB "boom" rfl).1⟩

end MarineData
